import Mathlib

/-!
Verification of the reach/frequency calculator's core engine
(`src/lib/math/calculations.ts`, `src/lib/math/resolver.ts`,
`src/lib/math/reachCurve.ts`, `src/lib/schemas.ts`).

The combined-reach engine and the combinability guardrail are embedded over ℚ
(the source performs only field arithmetic there, so the embedding is exact and
executable).  The effective-reach estimator, the reach-curve estimator and the
tactic resolver use `Math.exp`, so they are embedded over ℝ with `Real.exp`.
JavaScript `throw` is modelled with `Except`: a throwing function returns
`Except String α`, and the resolver's `try`/`catch` is modelled by an
`Except (ResolvedTactic × String)` body whose error value carries the result
record exactly as it stood when the exception was raised.

Warning/error strings that interpolate `toFixed`/`toLocaleString`-formatted
numbers are modelled without the numeric interpolation (floating-point display
formatting); all identifying text — tactic names, geo labels, channel names,
audience sizes — is kept.
-/

namespace ReachCalc

/-! ### Combined Reach (sequential remainder / dedup method), over ℚ -/

/-- One input tactic for `combinedReach`: a name and its reach percentage. -/
structure CRTactic where
  tacticName : String
  reachPercent : ℚ
  deriving Repr, DecidableEq

/-- One row of the sequential-remainder trace (source `CombinedReachStep`). -/
structure CombinedReachStep where
  tacticName : String
  reachPercent : ℚ
  remainder : ℚ
  incremental : ℚ
  runningTotal : ℚ
  deriving Repr, DecidableEq

/-- Source `CombinedReachResult`. -/
structure CombinedReachResult where
  steps : List CombinedReachStep
  combinedReachPercent : ℚ
  deriving Repr, DecidableEq

/-- Validation error raised by `combinedReach` (numeric interpolation elided). -/
def reachRangeError (tacticName : String) : String :=
  "Reach% for \"" ++ tacticName ++ "\" must be between 0 and 100"

/-- The loop body of `combinedReach` for every tactic after the first:
remainder = 100 − runningTotal, incremental = remainder × (reach%/100),
runningTotal += incremental.  Returns the steps pushed by the loop. -/
def combinedSteps (runningTotal : ℚ) : List CRTactic → List CombinedReachStep
  | [] => []
  | t :: rest =>
    let remainder := 100 - runningTotal
    let incremental := remainder * (t.reachPercent / 100)
    let newTotal := runningTotal + incremental
    ⟨t.tacticName, t.reachPercent, remainder, incremental, newTotal⟩ ::
      combinedSteps newTotal rest

/-- The final value of the `runningTotal` variable after the loop. -/
def combinedTotal (runningTotal : ℚ) : List CRTactic → ℚ
  | [] => runningTotal
  | t :: rest =>
    combinedTotal (runningTotal + (100 - runningTotal) * (t.reachPercent / 100)) rest

/-- The sort used by `combinedReach`: stable sort by reach% descending
(source: `[...tactics].sort((a, b) => b.reachPercent - a.reachPercent)`). -/
def sortByReachDesc (tactics : List CRTactic) : List CRTactic :=
  tactics.insertionSort (fun a b => b.reachPercent ≤ a.reachPercent)

/-- Source `combinedReach`: validates every reach% into [0,100], sorts
descending, seeds the running total with the first tactic's full reach%, then
applies the sequential remainder loop and clamps the result at 100. -/
def combinedReach (tactics : List CRTactic) : Except String CombinedReachResult :=
  if tactics.isEmpty then .ok ⟨[], 0⟩
  else
    match tactics.find? (fun t => decide (t.reachPercent < 0 ∨ 100 < t.reachPercent)) with
    | some t => .error (reachRangeError t.tacticName)
    | none =>
      match sortByReachDesc tactics with
      | [] => .ok ⟨[], 0⟩
      | t :: rest =>
        let firstStep : CombinedReachStep :=
          ⟨t.tacticName, t.reachPercent, 100, t.reachPercent, t.reachPercent⟩
        let steps := firstStep :: combinedSteps t.reachPercent rest
        let total := combinedTotal t.reachPercent rest
        .ok ⟨steps, min 100 total⟩

/-! ### Combinability guardrail (source `validateCombinableGroup`) -/

/-- One tactic as seen by the guardrail. -/
structure CombinableTactic where
  geoName : String
  audienceName : String
  audienceSize : ℚ
  tacticName : String
  deriving Repr, DecidableEq

/-- Source return type `{ valid: boolean; error?: string }`. -/
structure GroupValidation where
  valid : Bool
  error : Option String
  deriving Repr, DecidableEq

/-- Geography-mismatch message: names both tactics and both geo labels. -/
def geoMismatchError (t0 t : CombinableTactic) : String :=
  "Cannot combine tactics with different geographies. \"" ++ t0.tacticName ++
    "\" uses geo \"" ++ t0.geoName ++ "\" but \"" ++ t.tacticName ++
    "\" uses geo \"" ++ t.geoName ++ "\". All tactics must share the same geo."

/-- Audience-size-mismatch message: names both tactics and both sizes
(`toLocaleString` digit grouping elided). -/
def audienceSizeMismatchError (t0 t : CombinableTactic) : String :=
  "Cannot combine tactics with different audience sizes. \"" ++ t0.tacticName ++
    "\" has audience size " ++ toString t0.audienceSize ++ " but \"" ++
    t.tacticName ++ "\" has audience size " ++ toString t.audienceSize ++
    ". All tactics must target the same audience size."

/-- Source `validateCombinableGroup`: trivially valid below two tactics;
otherwise the first geography mismatch against the first tactic is reported,
and only if none exists the first audience-size mismatch. -/
def validateCombinableGroup (tactics : List CombinableTactic) : GroupValidation :=
  if tactics.length < 2 then ⟨true, none⟩
  else
    match tactics with
    | [] => ⟨true, none⟩
    | t0 :: _ =>
      match tactics.find? (fun t => t.geoName != t0.geoName) with
      | some t => ⟨false, some (geoMismatchError t0 t)⟩
      | none =>
        match tactics.find? (fun t => t.audienceSize != t0.audienceSize) with
        | some t => ⟨false, some (audienceSizeMismatchError t0 t)⟩
        | none => ⟨true, none⟩

/-! ### Basic conversions (source `calculations.ts`), over ℝ, throw = `Except.error` -/

/-- Gross Impressions from Cost and CPM: impressions = (cost / CPM) * 1000. -/
noncomputable def grossImpressionsFromCostCPM (cost cpm : ℝ) : Except String ℝ :=
  if cpm ≤ 0 then .error "CPM must be greater than 0"
  else if cost < 0 then .error "Cost cannot be negative"
  else .ok (cost / cpm * 1000)

/-- GRPs from Gross Impressions and target population. -/
noncomputable def grpsFromImpressions (grossImpressions audienceSize : ℝ) : Except String ℝ :=
  if audienceSize ≤ 0 then .error "Audience size must be greater than 0"
  else if grossImpressions < 0 then .error "Gross impressions cannot be negative"
  else .ok (grossImpressions / audienceSize * 100)

/-- GRPs from Reach% and Frequency: GRPs = reach% * frequency. -/
noncomputable def grpsFromReachFrequency (reachPercent frequency : ℝ) : Except String ℝ :=
  if reachPercent < 0 ∨ 100 < reachPercent then .error "Reach% must be between 0 and 100"
  else if frequency < 0 then .error "Frequency cannot be negative"
  else .ok (reachPercent * frequency)

/-- Average Frequency from GRPs and Reach%: frequency = GRPs / reach%. -/
noncomputable def averageFrequency (grps reachPercent : ℝ) : Except String ℝ :=
  if reachPercent ≤ 0 then .error "Reach% must be greater than 0 to compute frequency"
  else if grps < 0 then .error "GRPs cannot be negative"
  else .ok (grps / reachPercent)

/-- Gross Impressions from GRPs and audience (no validation in the source). -/
noncomputable def impressionsFromGRPs (grps audienceSize : ℝ) : ℝ :=
  grps / 100 * audienceSize

/-- Reach # from Reach% and audience size (`Math.round` = round half up). -/
noncomputable def reachNumber (reachPercent audienceSize : ℝ) : ℝ :=
  (round (reachPercent / 100 * audienceSize) : ℤ)

/-! ### Effective Reach (Poisson approximation), over ℝ -/

/-- Source `EffectiveReachResult`. -/
structure EffectiveReachResult where
  lambda : ℝ
  p0 : ℝ
  p1 : ℝ
  p2 : ℝ
  p3plus : ℝ
  effective3PlusPercent : ℝ

/-- The body of `effectiveReach3Plus` (after its negativity check):
λ = GRPs/100, Poisson masses for 0/1/2 exposures, P(3+) clamped to [0,1]. -/
noncomputable def effectiveReach3PlusResult (grps : ℝ) : EffectiveReachResult :=
  let lambda := grps / 100
  let expNegLambda := Real.exp (-lambda)
  let p0 := expNegLambda
  let p1 := lambda * expNegLambda
  let p2 := lambda * lambda / 2 * expNegLambda
  let p3plus := 1 - (p0 + p1 + p2)
  let clamped := max 0 (min 1 p3plus)
  ⟨lambda, p0, p1, p2, clamped, clamped * 100⟩

/-- Source `effectiveReach3Plus`: throws on negative GRPs. -/
noncomputable def effectiveReach3Plus (grps : ℝ) : Except String EffectiveReachResult :=
  if grps < 0 then .error "GRPs cannot be negative"
  else .ok (effectiveReach3PlusResult grps)

/-! ### Reach curve (source `reachCurve.ts`) -/

/-- Source `estimateReachPercent`: Reach% = 100 × (1 − e^(−k·GRPs/100)). -/
noncomputable def estimateReachPercent (grps k : ℝ) : Except String ℝ :=
  if grps < 0 then .error "GRPs cannot be negative"
  else if k ≤ 0 then .error "k must be positive"
  else .ok (100 * (1 - Real.exp (-k * grps / 100)))

/-- Source `getReachCurveK`: built-in curve steepness per channel (only TV). -/
def getReachCurveK (channel : String) : Option ℝ :=
  if channel = "TV" then some 1 else none

/-! ### Tactic resolver (source `resolver.ts`) -/

/-- Source `TacticInputs`: identity fields plus six optional numeric inputs. -/
structure TacticInputs where
  tacticName : String
  geoName : String
  audienceName : String
  audienceSize : ℝ
  channel : String
  grps : Option ℝ := none
  grossImpressions : Option ℝ := none
  cost : Option ℝ := none
  cpm : Option ℝ := none
  reachPercent : Option ℝ := none
  frequency : Option ℝ := none

/-- Source `ResolvedTactic`. -/
structure ResolvedTactic where
  tacticName : String
  geoName : String
  audienceName : String
  audienceSize : ℝ
  channel : String
  grossImpressions : Option ℝ
  grps : Option ℝ
  reachPercent : Option ℝ
  frequency : Option ℝ
  reachNum : Option ℝ
  effective3Plus : Option EffectiveReachResult
  inputCost : Option ℝ
  inputCPM : Option ℝ
  derivationPath : String
  warnings : List String
  errors : List String
  isFullyResolved : Bool
  reachPercentEstimated : Bool

/-- The freshly initialised result record at the top of `resolveTactic`. -/
def initResult (input : TacticInputs) : ResolvedTactic where
  tacticName := input.tacticName
  geoName := input.geoName
  audienceName := input.audienceName
  audienceSize := input.audienceSize
  channel := input.channel
  grossImpressions := none
  grps := none
  reachPercent := none
  frequency := none
  reachNum := none
  effective3Plus := none
  inputCost := input.cost
  inputCPM := input.cpm
  derivationPath := ""
  warnings := []
  errors := []
  isFullyResolved := false
  reachPercentEstimated := false

/-- Conflict warning pushed by the Reach%×Frequency path when it overrides a
previously derived GRPs value (the two `toFixed(2)` numbers elided). -/
def grpsConflictWarning : String :=
  "GRPs derived from Reach×Frequency differ from other inputs. Using Reach×Frequency value."

/-- Warning pushed on the Reach%-only terminal path. -/
def reachOnlyWarning : String :=
  "Only Reach% provided. Cannot compute Frequency, GRPs, or Effective 3+ Reach without additional inputs (Frequency, GRPs, Impressions, or Cost+CPM)."

/-- Error pushed when no input combination yields GRPs. -/
def insufficientInputsError : String :=
  "Insufficient inputs to compute GRPs. Provide one of: GRPs, Gross Impressions, Cost+CPM, or Reach%+Frequency."

/-- Error pushed when frequency is supplied but not positive. -/
def freqPositiveError : String :=
  "Frequency must be > 0 to derive Reach%."

/-- Warning pushed when reach% is auto-estimated via the channel reach curve
(the `toFixed(1)` estimate elided; the channel name is kept). -/
def reachCurveWarning (channel : String) : String :=
  "Reach% was auto-estimated using a " ++ channel ++
    " reach curve. This is an approximation — actual reach varies by daypart, network mix, and audience."

/-- Warning pushed when GRPs are known but no reach curve applies. -/
def cannotDetermineWarning : String :=
  "GRPs computed but Reach% and Frequency cannot be individually determined without at least one of them being provided."

/-- Error pushed when a computed reach% exceeds 100 (`toFixed(2)` elided). -/
def reachExceedsError : String :=
  "Computed Reach% exceeds 100%. Check your inputs."

/-- Path C of step 1: Cost + CPM → impressions → GRPs.  Returns the updated
result record together with the local `grps`/`grossImps` variables. -/
noncomputable def stepCostCPM (input : TacticInputs) (result : ResolvedTactic) :
    Except (ResolvedTactic × String) (ResolvedTactic × Option ℝ × Option ℝ) :=
  match input.cost, input.cpm with
  | some cost, some cpm =>
    match grossImpressionsFromCostCPM cost cpm with
    | .error e => .error (result, e)
    | .ok gi =>
      match grpsFromImpressions gi input.audienceSize with
      | .error e => .error (result, e)
      | .ok g =>
        .ok ({ result with derivationPath := "Cost + CPM → Impressions → GRPs" },
          some g, some gi)
  | _, _ => .ok (result, none, none)

/-- Path B of step 1: gross impressions → GRPs (can override/supplement). -/
noncomputable def stepGrossImpressions (input : TacticInputs) (result : ResolvedTactic)
    (grps grossImps : Option ℝ) :
    Except (ResolvedTactic × String) (ResolvedTactic × Option ℝ × Option ℝ) :=
  match input.grossImpressions with
  | some v =>
    match grpsFromImpressions v input.audienceSize with
    | .error e => .error (result, e)
    | .ok g =>
      .ok ({ result with derivationPath :=
        if result.derivationPath ≠ "" then "Gross Impressions → GRPs (overrides Cost+CPM)"
        else "Gross Impressions → GRPs" }, some g, some v)
  | none => .ok (result, grps, grossImps)

/-- Path A of step 1: GRPs provided directly; back-fill gross impressions when
the local variable is JavaScript-falsy (`!grossImps`: null or 0). -/
noncomputable def stepGRPsDirect (input : TacticInputs) (result : ResolvedTactic)
    (grps grossImps : Option ℝ) : ResolvedTactic × Option ℝ × Option ℝ :=
  match input.grps with
  | some v =>
    let gi :=
      match grossImps with
      | none => some (impressionsFromGRPs v input.audienceSize)
      | some w => if w = 0 then some (impressionsFromGRPs v input.audienceSize) else some w
    ({ result with derivationPath := "GRPs provided directly" }, some v, gi)
  | none => (result, grps, grossImps)

/-- Path D of step 1: Reach% + Frequency → GRPs; warns when this overrides an
earlier GRPs derivation by more than 0.01, then always wins. -/
noncomputable def stepReachFrequency (input : TacticInputs) (result : ResolvedTactic)
    (grps grossImps : Option ℝ) :
    Except (ResolvedTactic × String) (ResolvedTactic × Option ℝ × Option ℝ) :=
  match input.reachPercent, input.frequency with
  | some r, some f =>
    match grpsFromReachFrequency r f with
    | .error e => .error (result, e)
    | .ok derived =>
      let result :=
        match grps with
        | some g =>
          if 0.01 < |g - derived| then
            { result with warnings := result.warnings ++ [grpsConflictWarning] }
          else result
        | none => result
      .ok ({ result with derivationPath := "Reach% + Frequency → GRPs" },
        some derived, some (impressionsFromGRPs derived input.audienceSize))
  | _, _ => .ok (result, grps, grossImps)

/-- Step 1 of the resolver: the four GRPs-derivation paths in priority order. -/
noncomputable def deriveGRPs (input : TacticInputs) (result : ResolvedTactic) :
    Except (ResolvedTactic × String) (ResolvedTactic × Option ℝ × Option ℝ) :=
  match stepCostCPM input result with
  | .error e => .error e
  | .ok (result, grps, grossImps) =>
    match stepGrossImpressions input result grps grossImps with
    | .error e => .error e
    | .ok (result, grps, grossImps) =>
      match stepGRPsDirect input result grps grossImps with
      | (result, grps, grossImps) => stepReachFrequency input result grps grossImps

/-- Lines 431–437 of the source: effective 3+ reach, then `isFullyResolved`. -/
noncomputable def finishEffective (result : ResolvedTactic) (grps : ℝ) :
    Except (ResolvedTactic × String) ResolvedTactic :=
  match effectiveReach3Plus grps with
  | .error e => .error (result, e)
  | .ok eff =>
    let result := { result with effective3Plus := some eff }
    .ok { result with isFullyResolved :=
      result.grps.isSome && result.reachPercent.isSome &&
        result.frequency.isSome && result.effective3Plus.isSome }

/-- Lines 418–437 of the source: reach validation, reach #, effective reach. -/
noncomputable def finishReach (input : TacticInputs) (result : ResolvedTactic) (grps : ℝ) :
    Except (ResolvedTactic × String) ResolvedTactic :=
  match result.reachPercent with
  | some r =>
    if 100 < r then .ok { result with errors := result.errors ++ [reachExceedsError] }
    else
      finishEffective
        { result with reachNum := some (reachNumber r input.audienceSize) } grps
  | none => finishEffective result grps

/-- Step 2 of the resolver (lines 386–437): derive reach and frequency from the
known GRPs value, falling back to the channel reach curve, then finish. -/
noncomputable def resolveAfterGRPs (input : TacticInputs) (result : ResolvedTactic)
    (grps : ℝ) : Except (ResolvedTactic × String) ResolvedTactic :=
  match input.reachPercent with
  | some r =>
    let result := { result with reachPercent := some r }
    match averageFrequency grps r with
    | .error e => .error (result, e)
    | .ok f => finishReach input { result with frequency := some f } grps
  | none =>
    match input.frequency with
    | some f =>
      if 0 < f then
        finishReach input
          { result with reachPercent := some (grps / f), frequency := some f } grps
      else .ok { result with errors := result.errors ++ [freqPositiveError] }
    | none =>
      match getReachCurveK input.channel with
      | some k =>
        if 0 < grps then
          match estimateReachPercent grps k with
          | .error e => .error (result, e)
          | .ok est =>
            let result := { result with reachPercent := some est }
            match averageFrequency grps est with
            | .error e => .error (result, e)
            | .ok f =>
              finishReach input
                { result with
                  frequency := some f
                  reachPercentEstimated := true
                  derivationPath :=
                    result.derivationPath ++ " → Reach% estimated via reach curve"
                  warnings := result.warnings ++ [reachCurveWarning input.channel] } grps
        else
          finishReach input
            { result with warnings := result.warnings ++ [cannotDetermineWarning] } grps
      | none =>
        finishReach input
          { result with warnings := result.warnings ++ [cannotDetermineWarning] } grps

/-- The `try` block of `resolveTactic`: step 1, the Reach%-only terminal path,
the no-GRPs error path, then step 2.  `.error` carries the result record as it
stood when the modelled exception was raised. -/
noncomputable def resolveTacticBody (input : TacticInputs) :
    Except (ResolvedTactic × String) ResolvedTactic :=
  match deriveGRPs input (initResult input) with
  | .error e => .error e
  | .ok (result, grps, grossImps) =>
    match input.reachPercent, input.frequency, grps with
    | some r, none, none =>
      .ok { result with
        reachPercent := some r
        reachNum := some (reachNumber r input.audienceSize)
        derivationPath := "Reach% only (insufficient to compute GRPs/Frequency)"
        warnings := result.warnings ++ [reachOnlyWarning]
        isFullyResolved := false }
    | _, _, _ =>
      match grps with
      | none => .ok { result with errors := result.errors ++ [insufficientInputsError] }
      | some g =>
        resolveAfterGRPs input
          { result with grps := some g, grossImpressions := grossImps } g

/-- Source `resolveTactic`: the `try`/`catch` wrapper — a caught exception is
converted to text and appended to the errors list of the partial result. -/
noncomputable def resolveTactic (input : TacticInputs) : ResolvedTactic :=
  match resolveTacticBody input with
  | .ok r => r
  | .error (r, e) => { r with errors := r.errors ++ [e] }

/-! ### Lemmas about the combined-reach engine -/

/-- The loop's running total satisfies the closed product form:
`100 − total = (100 − seed) · Π (1 − rᵢ/100)`. -/
lemma combinedTotal_sub (ts : List CRTactic) : ∀ t : ℚ,
    100 - combinedTotal t ts =
      (100 - t) * (ts.map (fun x => 1 - x.reachPercent / 100)).prod := by
  induction ts with
  | nil => intro t; simp [combinedTotal]
  | cons x rest ih =>
    intro t
    rw [combinedTotal, ih, List.map_cons, List.prod_cons]
    ring

/-- On in-range inputs `combinedReach` succeeds and returns the clamped
closed-form product value. -/
lemma combinedReach_ok_percent (l : List CRTactic)
    (hb : ∀ t ∈ l, 0 ≤ t.reachPercent ∧ t.reachPercent ≤ 100) :
    ∃ res, combinedReach l = .ok res ∧
      res.combinedReachPercent =
        min 100 (100 * (1 - (l.map (fun t => 1 - t.reachPercent / 100)).prod)) := by
  by_cases hl : l = []
  · subst hl
    exact ⟨⟨[], 0⟩, rfl, by norm_num⟩
  · have hfind : l.find? (fun t => decide (t.reachPercent < 0 ∨ 100 < t.reachPercent)) = none := by
      rw [List.find?_eq_none]
      intro x hx
      simpa using not_or.2 ⟨not_lt.2 (hb x hx).1, not_lt.2 (hb x hx).2⟩
    obtain ⟨s, rest, hs⟩ : ∃ s rest, sortByReachDesc l = s :: rest := by
      cases h : sortByReachDesc l with
      | nil =>
        have hperm : (sortByReachDesc l).Perm l := List.perm_insertionSort _ l
        rw [h] at hperm
        exact absurd hperm.symm.eq_nil hl
      | cons a b => exact ⟨a, b, rfl⟩
    have hperm : (s :: rest).Perm l := by
      rw [← hs]; exact List.perm_insertionSort _ l
    have hprod :
        (l.map (fun t => 1 - t.reachPercent / 100)).prod =
          (1 - s.reachPercent / 100) *
            ((rest.map (fun t => 1 - t.reachPercent / 100)).prod) := by
      have h := ((hperm.map (fun t => 1 - t.reachPercent / 100)).prod_eq).symm
      simpa using h
    refine ⟨⟨⟨s.tacticName, s.reachPercent, 100, s.reachPercent, s.reachPercent⟩ ::
        combinedSteps s.reachPercent rest,
        min 100 (combinedTotal s.reachPercent rest)⟩, ?_, ?_⟩
    · unfold combinedReach
      rw [if_neg (by simpa using hl), hfind, hs]
    · show min 100 (combinedTotal s.reachPercent rest) = _
      have h1 := combinedTotal_sub rest s.reachPercent
      rw [hprod]
      congr 1
      linear_combination -h1

/-- C1: for every input list of tactics whose reachPercent values all lie in
[0,100), `combinedReach` returns the same `combinedReachPercent` for every
reordering of the input list, and that value equals
100×(1−Π(1−rᵢ/100)), clamped at 100 (the clamp being a no-op there). -/
theorem combinedReach_perm_invariant (l₁ l₂ : List CRTactic)
    (hb : ∀ t ∈ l₁, 0 ≤ t.reachPercent ∧ t.reachPercent < 100)
    (hperm : l₁.Perm l₂) :
    ∃ r₁ r₂, combinedReach l₁ = .ok r₁ ∧ combinedReach l₂ = .ok r₂ ∧
      r₁.combinedReachPercent = r₂.combinedReachPercent ∧
      r₁.combinedReachPercent =
        min 100 (100 * (1 - (l₁.map (fun t => 1 - t.reachPercent / 100)).prod)) ∧
      r₁.combinedReachPercent =
        100 * (1 - (l₁.map (fun t => 1 - t.reachPercent / 100)).prod) := by
  have hb₁ : ∀ t ∈ l₁, 0 ≤ t.reachPercent ∧ t.reachPercent ≤ 100 :=
    fun t ht => ⟨(hb t ht).1, le_of_lt (hb t ht).2⟩
  have hb₂ : ∀ t ∈ l₂, 0 ≤ t.reachPercent ∧ t.reachPercent ≤ 100 :=
    fun t ht => hb₁ t (hperm.mem_iff.mpr ht)
  obtain ⟨r₁, h₁, hv₁⟩ := combinedReach_ok_percent l₁ hb₁
  obtain ⟨r₂, h₂, hv₂⟩ := combinedReach_ok_percent l₂ hb₂
  have hprodeq :
      (l₁.map (fun t => 1 - t.reachPercent / 100)).prod =
        (l₂.map (fun t => 1 - t.reachPercent / 100)).prod :=
    (hperm.map (fun t => 1 - t.reachPercent / 100)).prod_eq
  have hpos : 0 < (l₁.map (fun t => 1 - t.reachPercent / 100)).prod := by
    apply List.prod_pos
    intro a ha
    obtain ⟨t, ht, rfl⟩ := List.mem_map.mp ha
    have := (hb t ht).2
    have h100 : t.reachPercent / 100 < 1 := by linarith
    linarith
  have hle : 100 * (1 - (l₁.map (fun t => 1 - t.reachPercent / 100)).prod) ≤ 100 := by
    nlinarith
  refine ⟨r₁, r₂, h₁, h₂, ?_, hv₁, ?_⟩
  · rw [hv₁, hv₂, hprodeq]
  · rw [hv₁, min_eq_right hle]

/-- Closed witness for C1 at the two-tactic list of spec Example 4 and a
reordering of it. -/
theorem combinedReach_perm_invariant_witness :
    (∀ t ∈ [CRTactic.mk "A" 60, CRTactic.mk "B" 30],
      0 ≤ t.reachPercent ∧ t.reachPercent < 100) ∧
    [CRTactic.mk "A" 60, CRTactic.mk "B" 30].Perm
      [CRTactic.mk "B" 30, CRTactic.mk "A" 60] ∧
    (∃ r₁ r₂, combinedReach [CRTactic.mk "A" 60, CRTactic.mk "B" 30] = .ok r₁ ∧
      combinedReach [CRTactic.mk "B" 30, CRTactic.mk "A" 60] = .ok r₂ ∧
      r₁.combinedReachPercent = r₂.combinedReachPercent ∧
      r₁.combinedReachPercent =
        min 100 (100 * (1 -
          ([CRTactic.mk "A" 60, CRTactic.mk "B" 30].map
            (fun t => 1 - t.reachPercent / 100)).prod)) ∧
      r₁.combinedReachPercent =
        100 * (1 - ([CRTactic.mk "A" 60, CRTactic.mk "B" 30].map
          (fun t => 1 - t.reachPercent / 100)).prod)) :=
  ⟨by decide, List.Perm.swap _ _ _, combinedReach_perm_invariant _ _ (by decide)
    (List.Perm.swap _ _ _)⟩

/-- C5: `combinedReach` raises an error if and only if some input tactic's
reachPercent lies outside [0,100]; on the empty input it returns
`combinedReachPercent = 0` with an empty steps list. -/
theorem combinedReach_error_iff :
    (∀ l : List CRTactic,
      (∃ e, combinedReach l = .error e) ↔
        ∃ t ∈ l, t.reachPercent < 0 ∨ 100 < t.reachPercent) ∧
    combinedReach [] = .ok ⟨[], 0⟩ := by
  constructor
  · intro l
    constructor
    · rintro ⟨e, he⟩
      by_cases hl : l = []
      · subst hl
        simp [combinedReach] at he
      · rw [combinedReach, if_neg (by simpa using hl)] at he
        cases hfind : l.find? (fun t => decide (t.reachPercent < 0 ∨ 100 < t.reachPercent)) with
        | none =>
          rw [hfind] at he
          cases hs : sortByReachDesc l with
          | nil => rw [hs] at he; exact absurd he (by simp)
          | cons a b => rw [hs] at he; exact absurd he (by simp)
        | some t =>
          exact ⟨t, List.mem_of_find?_eq_some hfind, by simpa using List.find?_some hfind⟩
    · rintro ⟨t, ht, hbad⟩
      have hl : l ≠ [] := by rintro rfl; exact absurd ht (List.not_mem_nil t)
      have hsome : (l.find? (fun t => decide (t.reachPercent < 0 ∨ 100 < t.reachPercent))).isSome := by
        rw [List.find?_isSome]
        exact ⟨t, ht, by simpa using hbad⟩
      obtain ⟨t', hfind⟩ := Option.isSome_iff_exists.mp hsome
      refine ⟨reachRangeError t'.tacticName, ?_⟩
      rw [combinedReach, if_neg (by simpa using hl), hfind]
  · rfl

/-- C7: combining a 100%-reach tactic with any tactic of reach in [0,100]
yields exactly 100, in either input order. -/
theorem combinedReach_with_full (n₁ n₂ : String) (r : ℚ)
    (h0 : 0 ≤ r) (h100 : r ≤ 100) :
    (∃ res, combinedReach [CRTactic.mk n₁ 100, CRTactic.mk n₂ r] = .ok res ∧
      res.combinedReachPercent = 100) ∧
    (∃ res, combinedReach [CRTactic.mk n₁ r, CRTactic.mk n₂ 100] = .ok res ∧
      res.combinedReachPercent = 100) := by
  constructor
  · obtain ⟨res, hres, hval⟩ :=
      combinedReach_ok_percent [CRTactic.mk n₁ 100, CRTactic.mk n₂ r]
        (by
          intro t ht
          simp only [List.mem_cons, List.mem_singleton] at ht
          rcases ht with rfl | rfl | h
          · exact ⟨by norm_num, by norm_num⟩
          · exact ⟨h0, h100⟩
          · exact absurd h (List.not_mem_nil t))
    refine ⟨res, hres, ?_⟩
    rw [hval]
    norm_num
  · obtain ⟨res, hres, hval⟩ :=
      combinedReach_ok_percent [CRTactic.mk n₁ r, CRTactic.mk n₂ 100]
        (by
          intro t ht
          simp only [List.mem_cons, List.mem_singleton] at ht
          rcases ht with rfl | rfl | h
          · exact ⟨h0, h100⟩
          · exact ⟨by norm_num, by norm_num⟩
          · exact absurd h (List.not_mem_nil t))
    refine ⟨res, hres, ?_⟩
    rw [hval]
    norm_num

/-- Closed witness for C7 at reach 30 (spec Example's shape). -/
theorem combinedReach_with_full_witness :
    ((0:ℚ) ≤ 30 ∧ (30:ℚ) ≤ 100) ∧
    ((∃ res, combinedReach [CRTactic.mk "A" 100, CRTactic.mk "B" 30] = .ok res ∧
        res.combinedReachPercent = 100) ∧
      (∃ res, combinedReach [CRTactic.mk "A" 30, CRTactic.mk "B" 100] = .ok res ∧
        res.combinedReachPercent = 100)) :=
  ⟨⟨by norm_num, by norm_num⟩,
    combinedReach_with_full "A" "B" 30 (by norm_num) (by norm_num)⟩

/-! ### Step-trace invariants of the combined-reach loop -/

/-- Adjacency relation between consecutive steps of the trace: the remainder
is 100 minus the previous running total, the running total accumulates the
incremental, and the running totals are nondecreasing. -/
def stepRel (s₁ s₂ : CombinedReachStep) : Prop :=
  s₂.remainder = 100 - s₁.runningTotal ∧
    s₂.runningTotal = s₁.runningTotal + s₂.incremental ∧
    s₁.runningTotal ≤ s₂.runningTotal

/-- The last running total recorded in a step list, with a default seed. -/
def lastRunningTotal (dflt : ℚ) : List CombinedReachStep → ℚ
  | [] => dflt
  | s :: rest => lastRunningTotal s.runningTotal rest

/-- The steps generated by the loop satisfy `stepRel` in a chain rooted at any
step carrying the seed running total. -/
lemma chain_combinedSteps : ∀ (ts : List CRTactic) (s : CombinedReachStep),
    (∀ t ∈ ts, 0 ≤ t.reachPercent ∧ t.reachPercent ≤ 100) →
    0 ≤ s.runningTotal → s.runningTotal ≤ 100 →
    List.Chain stepRel s (combinedSteps s.runningTotal ts) := by
  intro ts
  induction ts with
  | nil => intro s _ _ _; exact List.Chain.nil
  | cons t rest ih =>
    intro s hb h0 h100
    have ht := hb t (List.mem_cons_self t rest)
    have hrem : (0:ℚ) ≤ 100 - s.runningTotal := by linarith
    have hinc : (0:ℚ) ≤ (100 - s.runningTotal) * (t.reachPercent / 100) := by
      exact mul_nonneg hrem (div_nonneg ht.1 (by norm_num))
    have hincle : (100 - s.runningTotal) * (t.reachPercent / 100) ≤ 100 - s.runningTotal := by
      have hr1 : t.reachPercent / 100 ≤ 1 := by linarith [ht.2]
      nlinarith
    refine List.Chain.cons ⟨rfl, rfl, by simp only []; linarith⟩ ?_
    have := ih ⟨t.tacticName, t.reachPercent, 100 - s.runningTotal,
        (100 - s.runningTotal) * (t.reachPercent / 100),
        s.runningTotal + (100 - s.runningTotal) * (t.reachPercent / 100)⟩
      (fun x hx => hb x (List.mem_cons_of_mem t hx))
      (by simp only []; linarith) (by simp only []; linarith)
    exact this

/-- Every running total recorded by the loop stays between the seed and 100. -/
lemma combinedSteps_total_bounds : ∀ (ts : List CRTactic) (T : ℚ),
    (∀ t ∈ ts, 0 ≤ t.reachPercent ∧ t.reachPercent ≤ 100) →
    0 ≤ T → T ≤ 100 →
    ∀ s ∈ combinedSteps T ts, T ≤ s.runningTotal ∧ s.runningTotal ≤ 100 := by
  intro ts
  induction ts with
  | nil => intro T _ _ _ s hs; exact absurd hs (List.not_mem_nil s)
  | cons t rest ih =>
    intro T hb h0 h100 s hs
    have ht := hb t (List.mem_cons_self t rest)
    have hrem : (0:ℚ) ≤ 100 - T := by linarith
    have hinc : (0:ℚ) ≤ (100 - T) * (t.reachPercent / 100) := by
      exact mul_nonneg hrem (div_nonneg ht.1 (by norm_num))
    have hincle : (100 - T) * (t.reachPercent / 100) ≤ 100 - T := by
      have hr1 : t.reachPercent / 100 ≤ 1 := by linarith [ht.2]
      nlinarith
    rw [combinedSteps] at hs
    rcases List.mem_cons.mp hs with rfl | hs'
    · constructor
      · simp only []
        linarith
      · simp only []
        linarith
    · have := ih (T + (100 - T) * (t.reachPercent / 100))
        (fun x hx => hb x (List.mem_cons_of_mem t hx))
        (by linarith) (by linarith) s hs'
      exact ⟨by linarith [this.1], this.2⟩

/-- The last running total of the generated steps equals the loop's final
`runningTotal` variable. -/
lemma lastRunningTotal_combinedSteps : ∀ (ts : List CRTactic) (T : ℚ),
    lastRunningTotal T (combinedSteps T ts) = combinedTotal T ts := by
  intro ts
  induction ts with
  | nil => intro T; rfl
  | cons t rest ih => intro T; exact ih (T + (100 - T) * (t.reachPercent / 100))

/-- The loop's final running total stays between its seed and 100. -/
lemma combinedTotal_bounds : ∀ (ts : List CRTactic) (T : ℚ),
    (∀ t ∈ ts, 0 ≤ t.reachPercent ∧ t.reachPercent ≤ 100) →
    0 ≤ T → T ≤ 100 → T ≤ combinedTotal T ts ∧ combinedTotal T ts ≤ 100 := by
  intro ts
  induction ts with
  | nil => intro T _ _ h; exact ⟨le_refl T, h⟩
  | cons t rest ih =>
    intro T hb h0 h100
    have ht := hb t (List.mem_cons_self t rest)
    have hrem : (0:ℚ) ≤ 100 - T := by linarith
    have hinc : (0:ℚ) ≤ (100 - T) * (t.reachPercent / 100) := by
      exact mul_nonneg hrem (div_nonneg ht.1 (by norm_num))
    have hincle : (100 - T) * (t.reachPercent / 100) ≤ 100 - T := by
      have hr1 : t.reachPercent / 100 ≤ 1 := by linarith [ht.2]
      nlinarith
    have := ih (T + (100 - T) * (t.reachPercent / 100))
      (fun x hx => hb x (List.mem_cons_of_mem t hx))
      (by linarith) (by linarith)
    exact ⟨by rw [combinedTotal]; linarith [this.1], by rw [combinedTotal]; exact this.2⟩

/-- C9 (implicit): under exact arithmetic, for in-range inputs the returned
steps satisfy: the first step's remainder is 100 and its running total is
0 plus its incremental; every later step's remainder is 100 minus the previous
running total and its running total is the previous one plus its incremental;
the running totals are nondecreasing and never exceed 100; and the final
`min 100` clamp returns the last running total unchanged. -/
theorem combinedReach_steps_invariants (l : List CRTactic)
    (hb : ∀ t ∈ l, 0 ≤ t.reachPercent ∧ t.reachPercent ≤ 100) :
    ∃ res, combinedReach l = .ok res ∧
      (∀ s₀ ∈ res.steps.head?, s₀.remainder = 100 ∧ s₀.runningTotal = 0 + s₀.incremental) ∧
      List.Chain' stepRel res.steps ∧
      (∀ s ∈ res.steps, s.runningTotal ≤ 100) ∧
      res.combinedReachPercent = lastRunningTotal 0 res.steps ∧
      min 100 (lastRunningTotal 0 res.steps) = lastRunningTotal 0 res.steps := by
  by_cases hl : l = []
  · subst hl
    refine ⟨⟨[], 0⟩, rfl, ?_, trivial, ?_, rfl, by norm_num [lastRunningTotal]⟩
    · intro s hs; simp at hs
    · intro s hs; exact absurd hs (List.not_mem_nil s)
  · have hfind : l.find? (fun t => decide (t.reachPercent < 0 ∨ 100 < t.reachPercent)) = none := by
      rw [List.find?_eq_none]
      intro x hx
      simpa using not_or.2 ⟨not_lt.2 (hb x hx).1, not_lt.2 (hb x hx).2⟩
    obtain ⟨s, rest, hs⟩ : ∃ s rest, sortByReachDesc l = s :: rest := by
      cases h : sortByReachDesc l with
      | nil =>
        have hperm : (sortByReachDesc l).Perm l := List.perm_insertionSort _ l
        rw [h] at hperm
        exact absurd hperm.symm.eq_nil hl
      | cons a b => exact ⟨a, b, rfl⟩
    have hperm : (s :: rest).Perm l := by
      rw [← hs]; exact List.perm_insertionSort _ l
    have hss : s ∈ l := hperm.subset (List.mem_cons_self s rest)
    have hs0 : 0 ≤ s.reachPercent := (hb s hss).1
    have hs100 : s.reachPercent ≤ 100 := (hb s hss).2
    have hbrest : ∀ t ∈ rest, 0 ≤ t.reachPercent ∧ t.reachPercent ≤ 100 :=
      fun t ht => hb t (hperm.subset (List.mem_cons_of_mem s ht))
    have htot := combinedTotal_bounds rest s.reachPercent hbrest hs0 hs100
    have hlast : lastRunningTotal 0
        (⟨s.tacticName, s.reachPercent, 100, s.reachPercent, s.reachPercent⟩ ::
          combinedSteps s.reachPercent rest) = combinedTotal s.reachPercent rest := by
      show lastRunningTotal s.reachPercent (combinedSteps s.reachPercent rest) = _
      exact lastRunningTotal_combinedSteps rest s.reachPercent
    have hmin : min 100 (combinedTotal s.reachPercent rest) =
        combinedTotal s.reachPercent rest := min_eq_right htot.2
    refine ⟨⟨⟨s.tacticName, s.reachPercent, 100, s.reachPercent, s.reachPercent⟩ ::
        combinedSteps s.reachPercent rest,
        min 100 (combinedTotal s.reachPercent rest)⟩, ?_, ?_, ?_, ?_, ?_, ?_⟩
    · unfold combinedReach
      rw [if_neg (by simpa using hl), hfind, hs]
    · intro s₀ hs₀
      simp only [List.head?_cons, Option.mem_def, Option.some.injEq] at hs₀
      subst hs₀
      exact ⟨rfl, (zero_add _).symm⟩
    · exact chain_combinedSteps rest _ hbrest hs0 hs100
    · intro x hx
      rcases List.mem_cons.mp hx with rfl | hx'
      · exact hs100
      · exact (combinedSteps_total_bounds rest s.reachPercent hbrest hs0 hs100 x hx').2
    · rw [hlast]; exact hmin
    · rw [hlast]; exact hmin

/-- Closed witness for C9 at spec Example 4's inputs. -/
theorem combinedReach_steps_invariants_witness :
    (∀ t ∈ [CRTactic.mk "A" 60, CRTactic.mk "B" 30],
      0 ≤ t.reachPercent ∧ t.reachPercent ≤ 100) ∧
    (∃ res, combinedReach [CRTactic.mk "A" 60, CRTactic.mk "B" 30] = .ok res ∧
      (∀ s₀ ∈ res.steps.head?, s₀.remainder = 100 ∧ s₀.runningTotal = 0 + s₀.incremental) ∧
      List.Chain' stepRel res.steps ∧
      (∀ s ∈ res.steps, s.runningTotal ≤ 100) ∧
      res.combinedReachPercent = lastRunningTotal 0 res.steps ∧
      min 100 (lastRunningTotal 0 res.steps) = lastRunningTotal 0 res.steps) :=
  ⟨by decide, combinedReach_steps_invariants _ (by decide)⟩

/-! ### The combinability guardrail -/

/-- C8: `validateCombinableGroup` is valid for 0 or 1 tactics; with 2 or more
it compares every tactic's geography and audience size against the first
tactic's, reports a mismatch with a message naming both tactic names and both
conflicting values, and reports a geography mismatch in preference to an
audience-size mismatch when both exist anywhere in the list. -/
theorem validateCombinableGroup_spec :
    (∀ ts : List CombinableTactic, ts.length < 2 →
      validateCombinableGroup ts = ⟨true, none⟩) ∧
    (∀ (t0 : CombinableTactic) (ts : List CombinableTactic),
      (∃ t ∈ t0 :: ts, t.geoName ≠ t0.geoName) →
      ∃ t ∈ t0 :: ts, t.geoName ≠ t0.geoName ∧
        validateCombinableGroup (t0 :: ts) = ⟨false, some (geoMismatchError t0 t)⟩) ∧
    (∀ (t0 : CombinableTactic) (ts : List CombinableTactic),
      (∀ t ∈ t0 :: ts, t.geoName = t0.geoName) →
      (∃ t ∈ t0 :: ts, t.audienceSize ≠ t0.audienceSize) →
      ∃ t ∈ t0 :: ts, t.audienceSize ≠ t0.audienceSize ∧
        validateCombinableGroup (t0 :: ts) =
          ⟨false, some (audienceSizeMismatchError t0 t)⟩) ∧
    (∀ (t0 : CombinableTactic) (ts : List CombinableTactic),
      (∀ t ∈ t0 :: ts, t.geoName = t0.geoName ∧ t.audienceSize = t0.audienceSize) →
      validateCombinableGroup (t0 :: ts) = ⟨true, none⟩) := by
  refine ⟨?_, ?_, ?_, ?_⟩
  · intro ts h
    unfold validateCombinableGroup
    rw [if_pos h]
  · rintro t0 ts ⟨t, ht, hne⟩
    have htts : t ∈ ts := by
      rcases List.mem_cons.mp ht with rfl | h
      · exact absurd rfl hne
      · exact h
    have hlen : ¬(t0 :: ts).length < 2 := by
      cases ts with
      | nil => exact absurd htts (List.not_mem_nil t)
      | cons a b => simp [List.length_cons]
    have hsome : ((t0 :: ts).find? (fun x => x.geoName != t0.geoName)).isSome := by
      rw [List.find?_isSome]
      exact ⟨t, ht, by simpa [bne_iff_ne] using hne⟩
    obtain ⟨t', hfind⟩ := Option.isSome_iff_exists.mp hsome
    refine ⟨t', List.mem_of_find?_eq_some hfind,
      by simpa [bne_iff_ne] using List.find?_some hfind, ?_⟩
    simp only [validateCombinableGroup, if_neg hlen, hfind]
  · rintro t0 ts hgeo ⟨t, ht, hne⟩
    have htts : t ∈ ts := by
      rcases List.mem_cons.mp ht with rfl | h
      · exact absurd rfl hne
      · exact h
    have hlen : ¬(t0 :: ts).length < 2 := by
      cases ts with
      | nil => exact absurd htts (List.not_mem_nil t)
      | cons a b => simp [List.length_cons]
    have hnogeo : (t0 :: ts).find? (fun x => x.geoName != t0.geoName) = none := by
      rw [List.find?_eq_none]
      intro x hx
      simpa [bne_iff_ne] using hgeo x hx
    have hsome : ((t0 :: ts).find? (fun x => x.audienceSize != t0.audienceSize)).isSome := by
      rw [List.find?_isSome]
      exact ⟨t, ht, by simpa [bne_iff_ne] using hne⟩
    obtain ⟨t', hfind⟩ := Option.isSome_iff_exists.mp hsome
    refine ⟨t', List.mem_of_find?_eq_some hfind,
      by simpa [bne_iff_ne] using List.find?_some hfind, ?_⟩
    simp only [validateCombinableGroup, if_neg hlen, hnogeo, hfind]
  · intro t0 ts hall
    by_cases hlen : (t0 :: ts).length < 2
    · unfold validateCombinableGroup
      rw [if_pos hlen]
    · have hnogeo : (t0 :: ts).find? (fun x => x.geoName != t0.geoName) = none := by
        rw [List.find?_eq_none]
        intro x hx
        simpa [bne_iff_ne] using (hall x hx).1
      have hnoaud : (t0 :: ts).find? (fun x => x.audienceSize != t0.audienceSize) = none := by
        rw [List.find?_eq_none]
        intro x hx
        simpa [bne_iff_ne] using (hall x hx).2
      simp only [validateCombinableGroup, if_neg hlen, hnogeo, hnoaud]

/-- Closed witness for C8 at spec Example 6's shape: two tactics sharing a geo
but with differing audience sizes. -/
theorem validateCombinableGroup_spec_witness :
    (∀ t ∈ [CombinableTactic.mk "US" "Adults" 100 "T1",
        CombinableTactic.mk "US" "Adults" 200 "T2"],
      t.geoName = "US") ∧
    (∃ t ∈ [CombinableTactic.mk "US" "Adults" 100 "T1",
        CombinableTactic.mk "US" "Adults" 200 "T2"],
      t.audienceSize ≠ (100:ℚ)) ∧
    (∃ t ∈ [CombinableTactic.mk "US" "Adults" 100 "T1",
        CombinableTactic.mk "US" "Adults" 200 "T2"],
      t.audienceSize ≠ (100:ℚ) ∧
        validateCombinableGroup
          [CombinableTactic.mk "US" "Adults" 100 "T1",
            CombinableTactic.mk "US" "Adults" 200 "T2"] =
          ⟨false, some (audienceSizeMismatchError
            (CombinableTactic.mk "US" "Adults" 100 "T1") t)⟩) :=
  ⟨by decide, by decide,
    validateCombinableGroup_spec.2.2.1 (CombinableTactic.mk "US" "Adults" 100 "T1")
      [CombinableTactic.mk "US" "Adults" 200 "T2"] (by decide) (by decide)⟩

/-! ### Resolver analysis: validation messages and frame lemmas -/

/-- The complete set of messages carried by exceptions that the resolver's
catch block can receive (all raised by Basic Conversions or the estimator). -/
def validationMessages : List String :=
  ["CPM must be greater than 0", "Cost cannot be negative",
    "Audience size must be greater than 0", "Gross impressions cannot be negative",
    "Reach% must be between 0 and 100", "Frequency cannot be negative",
    "Reach% must be greater than 0 to compute frequency", "GRPs cannot be negative",
    "k must be positive"]

lemma grossImpressionsFromCostCPM_error {c p : ℝ} {e : String}
    (h : grossImpressionsFromCostCPM c p = .error e) : e ∈ validationMessages := by
  unfold grossImpressionsFromCostCPM at h
  split_ifs at h <;> simp_all [validationMessages]

lemma grpsFromImpressions_error {gi s : ℝ} {e : String}
    (h : grpsFromImpressions gi s = .error e) : e ∈ validationMessages := by
  unfold grpsFromImpressions at h
  split_ifs at h <;> simp_all [validationMessages]

lemma grpsFromReachFrequency_error {r f : ℝ} {e : String}
    (h : grpsFromReachFrequency r f = .error e) : e ∈ validationMessages := by
  unfold grpsFromReachFrequency at h
  split_ifs at h <;> simp_all [validationMessages]

lemma averageFrequency_error {g r : ℝ} {e : String}
    (h : averageFrequency g r = .error e) : e ∈ validationMessages := by
  unfold averageFrequency at h
  split_ifs at h <;> simp_all [validationMessages]

lemma effectiveReach3Plus_error {g : ℝ} {e : String}
    (h : effectiveReach3Plus g = .error e) : e ∈ validationMessages := by
  unfold effectiveReach3Plus at h
  split_ifs at h <;> simp_all [validationMessages]

lemma estimateReachPercent_error {g k : ℝ} {e : String}
    (h : estimateReachPercent g k = .error e) : e ∈ validationMessages := by
  unfold estimateReachPercent at h
  split_ifs at h <;> simp_all [validationMessages]

/-- The identity/display fields that no resolution step ever modifies. -/
structure CoreEq (r r' : ResolvedTactic) : Prop where
  tacticName_eq : r'.tacticName = r.tacticName
  geoName_eq : r'.geoName = r.geoName
  audienceName_eq : r'.audienceName = r.audienceName
  audienceSize_eq : r'.audienceSize = r.audienceSize
  channel_eq : r'.channel = r.channel
  inputCost_eq : r'.inputCost = r.inputCost
  inputCPM_eq : r'.inputCPM = r.inputCPM

lemma CoreEq.reflCore (r : ResolvedTactic) : CoreEq r r :=
  ⟨rfl, rfl, rfl, rfl, rfl, rfl, rfl⟩

lemma CoreEq.transCore {r₁ r₂ r₃ : ResolvedTactic} (h₁ : CoreEq r₁ r₂) (h₂ : CoreEq r₂ r₃) :
    CoreEq r₁ r₃ :=
  ⟨h₂.tacticName_eq.trans h₁.tacticName_eq, h₂.geoName_eq.trans h₁.geoName_eq,
    h₂.audienceName_eq.trans h₁.audienceName_eq,
    h₂.audienceSize_eq.trans h₁.audienceSize_eq, h₂.channel_eq.trans h₁.channel_eq,
    h₂.inputCost_eq.trans h₁.inputCost_eq, h₂.inputCPM_eq.trans h₁.inputCPM_eq⟩

/-- The result fields that step 1 (GRPs derivation) never modifies: it only
touches `derivationPath` and `warnings`. -/
structure Step1Frame (r r' : ResolvedTactic) extends CoreEq r r' : Prop where
  grps_eq : r'.grps = r.grps
  reachPercent_eq : r'.reachPercent = r.reachPercent
  frequency_eq : r'.frequency = r.frequency
  reachNum_eq : r'.reachNum = r.reachNum
  effective3Plus_eq : r'.effective3Plus = r.effective3Plus
  errors_eq : r'.errors = r.errors
  isFullyResolved_eq : r'.isFullyResolved = r.isFullyResolved

lemma Step1Frame.reflFrame (r : ResolvedTactic) : Step1Frame r r :=
  ⟨CoreEq.reflCore r, rfl, rfl, rfl, rfl, rfl, rfl, rfl⟩

lemma Step1Frame.transFrame {r₁ r₂ r₃ : ResolvedTactic}
    (h₁ : Step1Frame r₁ r₂) (h₂ : Step1Frame r₂ r₃) : Step1Frame r₁ r₃ :=
  ⟨h₁.toCoreEq.transCore h₂.toCoreEq, h₂.grps_eq.trans h₁.grps_eq,
    h₂.reachPercent_eq.trans h₁.reachPercent_eq, h₂.frequency_eq.trans h₁.frequency_eq,
    h₂.reachNum_eq.trans h₁.reachNum_eq, h₂.effective3Plus_eq.trans h₁.effective3Plus_eq,
    h₂.errors_eq.trans h₁.errors_eq, h₂.isFullyResolved_eq.trans h₁.isFullyResolved_eq⟩

lemma stepCostCPM_cases (input : TacticInputs) (result : ResolvedTactic) :
    (∀ r' g gi, stepCostCPM input result = .ok (r', g, gi) → Step1Frame result r') ∧
    (∀ r' e, stepCostCPM input result = .error (r', e) →
      Step1Frame result r' ∧ e ∈ validationMessages) := by
  constructor
  · intro r' g gi h
    unfold stepCostCPM at h
    split at h
    · split at h
      · simp at h
      · split at h
        · simp at h
        · simp at h
          obtain ⟨h1, -⟩ := h
          subst h1
          exact ⟨⟨rfl, rfl, rfl, rfl, rfl, rfl, rfl⟩, rfl, rfl, rfl, rfl, rfl, rfl, rfl⟩
    · simp at h
      obtain ⟨h1, -⟩ := h
      subst h1
      exact Step1Frame.reflFrame _
  · intro r' e h
    unfold stepCostCPM at h
    split at h
    · split at h
      · rename_i cost cpm e' heq
        simp at h
        obtain ⟨h3, h4⟩ := h
        subst h3
        subst h4
        exact ⟨Step1Frame.reflFrame _, grossImpressionsFromCostCPM_error heq⟩
      · split at h
        · rename_i cost cpm gi' hgi e' heq
          simp at h
          obtain ⟨h3, h4⟩ := h
          subst h3
          subst h4
          exact ⟨Step1Frame.reflFrame _, grpsFromImpressions_error heq⟩
        · simp at h
    · simp at h

lemma stepGrossImpressions_cases (input : TacticInputs) (result : ResolvedTactic)
    (grps grossImps : Option ℝ) :
    (∀ r' g gi, stepGrossImpressions input result grps grossImps = .ok (r', g, gi) →
      Step1Frame result r') ∧
    (∀ r' e, stepGrossImpressions input result grps grossImps = .error (r', e) →
      Step1Frame result r' ∧ e ∈ validationMessages) := by
  constructor
  · intro r' g gi h
    unfold stepGrossImpressions at h
    split at h
    · split at h
      · simp at h
      · simp at h
        obtain ⟨h1, -⟩ := h
        subst h1
        exact ⟨⟨rfl, rfl, rfl, rfl, rfl, rfl, rfl⟩, rfl, rfl, rfl, rfl, rfl, rfl, rfl⟩
    · simp at h
      obtain ⟨h1, -⟩ := h
      subst h1
      exact Step1Frame.reflFrame _
  · intro r' e h
    unfold stepGrossImpressions at h
    split at h
    · split at h
      · rename_i v hv e' heq
        simp at h
        obtain ⟨h3, h4⟩ := h
        subst h3
        subst h4
        exact ⟨Step1Frame.reflFrame _, grpsFromImpressions_error heq⟩
      · simp at h
    · simp at h

lemma stepGRPsDirect_frame (input : TacticInputs) (result : ResolvedTactic)
    (grps grossImps : Option ℝ) :
    ∀ r' g gi, stepGRPsDirect input result grps grossImps = (r', g, gi) →
      Step1Frame result r' := by
  intro r' g gi h
  unfold stepGRPsDirect at h
  split at h
  · simp at h
    obtain ⟨h1, -⟩ := h
    subst h1
    exact ⟨⟨rfl, rfl, rfl, rfl, rfl, rfl, rfl⟩, rfl, rfl, rfl, rfl, rfl, rfl, rfl⟩
  · simp at h
    obtain ⟨h1, -⟩ := h
    subst h1
    exact Step1Frame.reflFrame _

lemma stepReachFrequency_cases (input : TacticInputs) (result : ResolvedTactic)
    (grps grossImps : Option ℝ) :
    (∀ r' g gi, stepReachFrequency input result grps grossImps = .ok (r', g, gi) →
      Step1Frame result r') ∧
    (∀ r' e, stepReachFrequency input result grps grossImps = .error (r', e) →
      Step1Frame result r' ∧ e ∈ validationMessages) := by
  constructor
  · intro r' g gi h
    unfold stepReachFrequency at h
    split at h
    · split at h
      · simp at h
      · split at h
        · split at h
          · simp at h
            obtain ⟨h1, -⟩ := h
            subst h1
            exact ⟨⟨rfl, rfl, rfl, rfl, rfl, rfl, rfl⟩, rfl, rfl, rfl, rfl, rfl, rfl, rfl⟩
          · simp at h
            obtain ⟨h1, -⟩ := h
            subst h1
            exact ⟨⟨rfl, rfl, rfl, rfl, rfl, rfl, rfl⟩, rfl, rfl, rfl, rfl, rfl, rfl, rfl⟩
        · simp at h
          obtain ⟨h1, -⟩ := h
          subst h1
          exact ⟨⟨rfl, rfl, rfl, rfl, rfl, rfl, rfl⟩, rfl, rfl, rfl, rfl, rfl, rfl, rfl⟩
    · simp at h
      obtain ⟨h1, -⟩ := h
      subst h1
      exact Step1Frame.reflFrame _
  · intro r' e h
    unfold stepReachFrequency at h
    split at h
    · split at h
      · rename_i r f e' heq
        simp at h
        obtain ⟨h3, h4⟩ := h
        subst h3
        subst h4
        exact ⟨Step1Frame.reflFrame _, grpsFromReachFrequency_error heq⟩
      · split at h
        · split at h
          · simp at h
          · simp at h
        · simp at h
    · simp at h

lemma deriveGRPs_cases (input : TacticInputs) (result : ResolvedTactic) :
    (∀ r' g gi, deriveGRPs input result = .ok (r', g, gi) → Step1Frame result r') ∧
    (∀ r' e, deriveGRPs input result = .error (r', e) →
      Step1Frame result r' ∧ e ∈ validationMessages) := by
  constructor
  · intro r' g gi h
    unfold deriveGRPs at h
    split at h
    · simp at h
    · rename_i r₁ g₁ gi₁ heq1
      have hf1 := (stepCostCPM_cases input result).1 r₁ g₁ gi₁ heq1
      split at h
      · simp at h
      · rename_i r₂ g₂ gi₂ heq2
        have hf2 := (stepGrossImpressions_cases input r₁ g₁ gi₁).1 r₂ g₂ gi₂ heq2
        split at h
        rename_i r₃ g₃ gi₃ heq3
        have hf3 := stepGRPsDirect_frame input r₂ g₂ gi₂ r₃ g₃ gi₃ heq3
        have hf4 := (stepReachFrequency_cases input r₃ g₃ gi₃).1 r' g gi h
        exact ((hf1.transFrame hf2).transFrame hf3).transFrame hf4
  · intro r' e h
    unfold deriveGRPs at h
    split at h
    · rename_i re heq
      simp at h
      subst h
      exact (stepCostCPM_cases input result).2 r' e heq
    · rename_i r₁ g₁ gi₁ heq1
      have hf1 := (stepCostCPM_cases input result).1 r₁ g₁ gi₁ heq1
      split at h
      · rename_i re heq
        simp at h
        subst h
        have := (stepGrossImpressions_cases input r₁ g₁ gi₁).2 r' e heq
        exact ⟨hf1.transFrame this.1, this.2⟩
      · rename_i r₂ g₂ gi₂ heq2
        have hf2 := (stepGrossImpressions_cases input r₁ g₁ gi₁).1 r₂ g₂ gi₂ heq2
        split at h
        rename_i r₃ g₃ gi₃ heq3
        have hf3 := stepGRPsDirect_frame input r₂ g₂ gi₂ r₃ g₃ gi₃ heq3
        have hf4 := (stepReachFrequency_cases input r₃ g₃ gi₃).2 r' e h
        exact ⟨((hf1.transFrame hf2).transFrame hf3).transFrame hf4.1, hf4.2⟩

lemma finishEffective_cases (result : ResolvedTactic) (g : ℝ) :
    (∀ r', finishEffective result g = .ok r' → CoreEq result r') ∧
    (∀ r' e, finishEffective result g = .error (r', e) →
      CoreEq result r' ∧ e ∈ validationMessages) := by
  constructor
  · intro r' h
    unfold finishEffective at h
    split at h
    · simp at h
    · simp at h
      subst h
      exact ⟨rfl, rfl, rfl, rfl, rfl, rfl, rfl⟩
  · intro r' e h
    unfold finishEffective at h
    split at h
    · rename_i e' heq
      simp at h
      obtain ⟨h1, h2⟩ := h
      subst h1
      subst h2
      exact ⟨CoreEq.reflCore _, effectiveReach3Plus_error heq⟩
    · simp at h

lemma finishReach_cases (input : TacticInputs) (result : ResolvedTactic) (g : ℝ) :
    (∀ r', finishReach input result g = .ok r' → CoreEq result r') ∧
    (∀ r' e, finishReach input result g = .error (r', e) →
      CoreEq result r' ∧ e ∈ validationMessages) := by
  constructor
  · intro r' h
    unfold finishReach at h
    split at h
    · split at h
      · simp at h
        subst h
        exact ⟨rfl, rfl, rfl, rfl, rfl, rfl, rfl⟩
      · refine CoreEq.transCore ?_ ((finishEffective_cases _ g).1 r' h)
        exact ⟨rfl, rfl, rfl, rfl, rfl, rfl, rfl⟩
    · exact (finishEffective_cases result g).1 r' h
  · intro r' e h
    unfold finishReach at h
    split at h
    · split at h
      · simp at h
      · have hh := (finishEffective_cases _ g).2 r' e h
        refine ⟨CoreEq.transCore ?_ hh.1, hh.2⟩
        exact ⟨rfl, rfl, rfl, rfl, rfl, rfl, rfl⟩
    · exact (finishEffective_cases result g).2 r' e h

lemma resolveAfterGRPs_cases (input : TacticInputs) (result : ResolvedTactic) (g : ℝ) :
    (∀ r', resolveAfterGRPs input result g = .ok r' → CoreEq result r') ∧
    (∀ r' e, resolveAfterGRPs input result g = .error (r', e) →
      CoreEq result r' ∧ e ∈ validationMessages) := by
  constructor
  · intro r' h
    unfold resolveAfterGRPs at h
    split at h
    · -- input.reachPercent = some r
      split at h
      · simp at h
      · refine CoreEq.transCore ?_ ((finishReach_cases input _ g).1 r' h)
        exact ⟨rfl, rfl, rfl, rfl, rfl, rfl, rfl⟩
    · -- input.reachPercent = none
      split at h
      · -- input.frequency = some f
        split at h
        · refine CoreEq.transCore ?_ ((finishReach_cases input _ g).1 r' h)
          exact ⟨rfl, rfl, rfl, rfl, rfl, rfl, rfl⟩
        · simp at h
          subst h
          exact ⟨rfl, rfl, rfl, rfl, rfl, rfl, rfl⟩
      · -- input.frequency = none
        split at h
        · -- curve available
          split at h
          · -- 0 < g
            split at h
            · simp at h
            · split at h
              · simp at h
              · refine CoreEq.transCore ?_ ((finishReach_cases input _ g).1 r' h)
                exact ⟨rfl, rfl, rfl, rfl, rfl, rfl, rfl⟩
          · refine CoreEq.transCore ?_ ((finishReach_cases input _ g).1 r' h)
            exact ⟨rfl, rfl, rfl, rfl, rfl, rfl, rfl⟩
        · refine CoreEq.transCore ?_ ((finishReach_cases input _ g).1 r' h)
          exact ⟨rfl, rfl, rfl, rfl, rfl, rfl, rfl⟩
  · intro r' e h
    unfold resolveAfterGRPs at h
    split at h
    · split at h
      · rename_i r heqr e' heq
        simp at h
        obtain ⟨h1, h2⟩ := h
        subst h1
        subst h2
        exact ⟨⟨rfl, rfl, rfl, rfl, rfl, rfl, rfl⟩, averageFrequency_error heq⟩
      · have hh := (finishReach_cases input _ g).2 r' e h
        refine ⟨CoreEq.transCore ?_ hh.1, hh.2⟩
        exact ⟨rfl, rfl, rfl, rfl, rfl, rfl, rfl⟩
    · split at h
      · split at h
        · have hh := (finishReach_cases input _ g).2 r' e h
          refine ⟨CoreEq.transCore ?_ hh.1, hh.2⟩
          exact ⟨rfl, rfl, rfl, rfl, rfl, rfl, rfl⟩
        · simp at h
      · split at h
        · split at h
          · split at h
            · rename_i k hk hg e' heq
              simp at h
              obtain ⟨h1, h2⟩ := h
              subst h1
              subst h2
              exact ⟨CoreEq.reflCore _, estimateReachPercent_error heq⟩
            · split at h
              · rename_i k hk hg est hest e' heq
                simp at h
                obtain ⟨h1, h2⟩ := h
                subst h1
                subst h2
                exact ⟨⟨rfl, rfl, rfl, rfl, rfl, rfl, rfl⟩, averageFrequency_error heq⟩
              · have hh := (finishReach_cases input _ g).2 r' e h
                refine ⟨CoreEq.transCore ?_ hh.1, hh.2⟩
                exact ⟨rfl, rfl, rfl, rfl, rfl, rfl, rfl⟩
          · have hh := (finishReach_cases input _ g).2 r' e h
            refine ⟨CoreEq.transCore ?_ hh.1, hh.2⟩
            exact ⟨rfl, rfl, rfl, rfl, rfl, rfl, rfl⟩
        · have hh := (finishReach_cases input _ g).2 r' e h
          refine ⟨CoreEq.transCore ?_ hh.1, hh.2⟩
          exact ⟨rfl, rfl, rfl, rfl, rfl, rfl, rfl⟩

lemma resolveTacticBody_cases (input : TacticInputs) :
    (∀ r, resolveTacticBody input = .ok r → CoreEq (initResult input) r) ∧
    (∀ r e, resolveTacticBody input = .error (r, e) →
      CoreEq (initResult input) r ∧ e ∈ validationMessages) := by
  constructor
  · intro r h
    unfold resolveTacticBody at h
    split at h
    · simp at h
    · rename_i r₁ g₁ gi₁ heq1
      have hf1 := (deriveGRPs_cases input (initResult input)).1 r₁ g₁ gi₁ heq1
      split at h
      · simp at h
        subst h
        refine hf1.toCoreEq.transCore ?_
        exact ⟨rfl, rfl, rfl, rfl, rfl, rfl, rfl⟩
      · split at h
        · simp at h
          subst h
          refine hf1.toCoreEq.transCore ?_
          exact ⟨rfl, rfl, rfl, rfl, rfl, rfl, rfl⟩
        · rename_i gv hgv
          have hh := (resolveAfterGRPs_cases input _ gv).1 r h
          refine hf1.toCoreEq.transCore (CoreEq.transCore ?_ hh)
          exact ⟨rfl, rfl, rfl, rfl, rfl, rfl, rfl⟩
  · intro r e h
    unfold resolveTacticBody at h
    split at h
    · rename_i re heq
      simp at h
      subst h
      have hh := (deriveGRPs_cases input (initResult input)).2 r e heq
      exact ⟨hh.1.toCoreEq, hh.2⟩
    · rename_i r₁ g₁ gi₁ heq1
      have hf1 := (deriveGRPs_cases input (initResult input)).1 r₁ g₁ gi₁ heq1
      split at h
      · simp at h
      · split at h
        · simp at h
        · rename_i gv hgv
          have hh := (resolveAfterGRPs_cases input _ gv).2 r e h
          refine ⟨hf1.toCoreEq.transCore (CoreEq.transCore ?_ hh.1), hh.2⟩
          exact ⟨rfl, rfl, rfl, rfl, rfl, rfl, rfl⟩

/-- C4: `resolveTactic` is total — it always returns a `ResolvedTactic`, and
the identity/display fields always carry the input's values; moreover every
resolution run either completes the try block normally, or a validation
failure (one of the Basic-Conversion / estimator messages) is caught,
converted to text appended to the errors list, and the partial result as it
stood at the failure point is retained in the returned value. -/
theorem resolveTactic_total_caught (input : TacticInputs) :
    ((resolveTactic input).tacticName = input.tacticName ∧
      (resolveTactic input).geoName = input.geoName ∧
      (resolveTactic input).audienceName = input.audienceName ∧
      (resolveTactic input).audienceSize = input.audienceSize ∧
      (resolveTactic input).channel = input.channel ∧
      (resolveTactic input).inputCost = input.cost ∧
      (resolveTactic input).inputCPM = input.cpm) ∧
    ((∃ r, resolveTacticBody input = .ok r ∧ resolveTactic input = r) ∨
      (∃ r e, resolveTacticBody input = .error (r, e) ∧
        resolveTactic input = { r with errors := r.errors ++ [e] } ∧
        e ∈ validationMessages)) := by
  cases hb : resolveTacticBody input with
  | ok r =>
    have hres : resolveTactic input = r := by
      unfold resolveTactic
      rw [hb]
    have hcore := (resolveTacticBody_cases input).1 r hb
    rw [hres]
    exact ⟨⟨hcore.tacticName_eq, hcore.geoName_eq, hcore.audienceName_eq,
      hcore.audienceSize_eq, hcore.channel_eq, hcore.inputCost_eq, hcore.inputCPM_eq⟩,
      Or.inl ⟨r, rfl, rfl⟩⟩
  | error pe =>
    obtain ⟨rr, ee⟩ := pe
    have hres : resolveTactic input = { rr with errors := rr.errors ++ [ee] } := by
      unfold resolveTactic
      rw [hb]
    have hcore := (resolveTacticBody_cases input).2 rr ee hb
    rw [hres]
    exact ⟨⟨hcore.1.tacticName_eq, hcore.1.geoName_eq, hcore.1.audienceName_eq,
      hcore.1.audienceSize_eq, hcore.1.channel_eq, hcore.1.inputCost_eq,
      hcore.1.inputCPM_eq⟩,
      Or.inr ⟨rr, ee, rfl, rfl, hcore.2⟩⟩

/-- `averageFrequency` always raises its reach-positivity error at reach 0. -/
lemma averageFrequency_zero (g : ℝ) :
    averageFrequency g 0 = .error "Reach% must be greater than 0 to compute frequency" := by
  unfold averageFrequency
  rw [if_pos le_rfl]

/-- C10 (implicit): whenever the input supplies `reachPercent = 0` and any
input set yields a GRPs value (so that the result's `grps` field is set),
`resolveTactic` does not resolve: the errors list contains
"Reach% must be greater than 0 to compute frequency", and `frequency`,
`reachNum` and `effective3Plus` stay null with `isFullyResolved = false`. -/
theorem resolveTactic_zero_reach (i : TacticInputs) (g : ℝ)
    (hr : i.reachPercent = some 0) (hg : (resolveTactic i).grps = some g) :
    "Reach% must be greater than 0 to compute frequency" ∈ (resolveTactic i).errors ∧
    (resolveTactic i).frequency = none ∧
    (resolveTactic i).reachNum = none ∧
    (resolveTactic i).effective3Plus = none ∧
    (resolveTactic i).isFullyResolved = false := by
  cases hb : resolveTacticBody i with
  | ok r =>
    have hres : resolveTactic i = r := by
      unfold resolveTactic
      rw [hb]
    rw [hres] at hg
    exfalso
    unfold resolveTacticBody at hb
    split at hb
    · simp at hb
    · rename_i r₁ g₁ gi₁ heq1
      have hf1 := (deriveGRPs_cases i (initResult i)).1 r₁ g₁ gi₁ heq1
      have hgrps₁ : r₁.grps = none := hf1.grps_eq
      split at hb
      · simp at hb
        subst hb
        simp at hg
        rw [hgrps₁] at hg
        exact Option.noConfusion hg
      · split at hb
        · simp at hb
          subst hb
          simp at hg
          rw [hgrps₁] at hg
          exact Option.noConfusion hg
        · rename_i gv hgv
          unfold resolveAfterGRPs at hb
          rw [hr] at hb
          simp only [averageFrequency_zero] at hb
          simp at hb
  | error pe =>
    obtain ⟨rr, ee⟩ := pe
    have hres : resolveTactic i = { rr with errors := rr.errors ++ [ee] } := by
      unfold resolveTactic
      rw [hb]
    rw [hres] at hg ⊢
    unfold resolveTacticBody at hb
    split at hb
    · rename_i re heq
      simp at hb
      subst hb
      exfalso
      have hf := ((deriveGRPs_cases i (initResult i)).2 rr ee heq).1
      have : rr.grps = none := hf.grps_eq
      simp at hg
      rw [this] at hg
      exact Option.noConfusion hg
    · rename_i r₁ g₁ gi₁ heq1
      have hf1 := (deriveGRPs_cases i (initResult i)).1 r₁ g₁ gi₁ heq1
      split at hb
      · simp at hb
      · split at hb
        · simp at hb
        · rename_i gv hgv
          unfold resolveAfterGRPs at hb
          rw [hr] at hb
          simp only [averageFrequency_zero] at hb
          simp at hb
          obtain ⟨hb1, hb2⟩ := hb
          subst hb1
          subst hb2
          refine ⟨?_, ?_, ?_, ?_, ?_⟩
          · simp [hf1.errors_eq, initResult]
          · simp [hf1.frequency_eq, initResult]
          · simp [hf1.reachNum_eq, initResult]
          · simp [hf1.effective3Plus_eq, initResult]
          · simp [hf1.isFullyResolved_eq, initResult]

/-- Closed witness for C10: GRPs supplied directly together with reach 0. -/
theorem resolveTactic_zero_reach_witness :
    (TacticInputs.mk "T" "G" "A" 1000 "Other" (some 120) none none none (some 0)
        none).reachPercent = some 0 ∧
    (resolveTactic (TacticInputs.mk "T" "G" "A" 1000 "Other" (some 120) none none none
        (some 0) none)).grps = some 120 ∧
    ("Reach% must be greater than 0 to compute frequency" ∈
        (resolveTactic (TacticInputs.mk "T" "G" "A" 1000 "Other" (some 120) none none
          none (some 0) none)).errors ∧
      (resolveTactic (TacticInputs.mk "T" "G" "A" 1000 "Other" (some 120) none none
        none (some 0) none)).frequency = none ∧
      (resolveTactic (TacticInputs.mk "T" "G" "A" 1000 "Other" (some 120) none none
        none (some 0) none)).reachNum = none ∧
      (resolveTactic (TacticInputs.mk "T" "G" "A" 1000 "Other" (some 120) none none
        none (some 0) none)).effective3Plus = none ∧
      (resolveTactic (TacticInputs.mk "T" "G" "A" 1000 "Other" (some 120) none none
        none (some 0) none)).isFullyResolved = false) := by
  have hgrps : (resolveTactic (TacticInputs.mk "T" "G" "A" 1000 "Other" (some 120) none
      none none (some 0) none)).grps = some 120 := by
    unfold resolveTactic resolveTacticBody deriveGRPs stepCostCPM stepGrossImpressions
      stepGRPsDirect stepReachFrequency resolveAfterGRPs
    simp [averageFrequency_zero]
  exact ⟨rfl, hgrps, resolveTactic_zero_reach _ 120 rfl hgrps⟩

/-! ### Override warnings (C2) -/

/-- Counterexample to C2 as stated: Cost+CPM derive GRPs = 1000, a supplied
grossImpressions of 5000 overrides them to GRPs = 500 (a change far above
0.01), yet the resolver returns with an empty warnings list. -/
theorem resolveTactic_override_no_warning_cex :
    grossImpressionsFromCostCPM 100 10 = .ok 10000 ∧
    grpsFromImpressions 10000 1000 = .ok 1000 ∧
    grpsFromImpressions 5000 1000 = .ok 500 ∧
    (0.01 : ℝ) < |(1000 : ℝ) - 500| ∧
    (resolveTactic (TacticInputs.mk "T" "G" "A" 1000 "Other" none (some 5000) (some 100)
      (some 10) (some 50) none)).grps = some 500 ∧
    (resolveTactic (TacticInputs.mk "T" "G" "A" 1000 "Other" none (some 5000) (some 100)
      (some 10) (some 50) none)).warnings = [] := by
  have habs : |(1000 : ℝ) - 500| = 500 := by
    rw [abs_of_nonneg] <;> norm_num
  have heval : (resolveTactic (TacticInputs.mk "T" "G" "A" 1000 "Other" none (some 5000)
      (some 100) (some 10) (some 50) none)).grps = some 500 ∧
      (resolveTactic (TacticInputs.mk "T" "G" "A" 1000 "Other" none (some 5000) (some 100)
        (some 10) (some 50) none)).warnings = [] := by
    unfold resolveTactic resolveTacticBody deriveGRPs stepCostCPM stepGrossImpressions
      stepGRPsDirect stepReachFrequency resolveAfterGRPs finishReach finishEffective
      initResult
    norm_num [grossImpressionsFromCostCPM, grpsFromImpressions, averageFrequency,
      effectiveReach3Plus]
  refine ⟨?_, ?_, ?_, ?_, heval.1, heval.2⟩
  · norm_num [grossImpressionsFromCostCPM]
  · norm_num [grpsFromImpressions]
  · norm_num [grpsFromImpressions]
  · rw [habs]; norm_num

/-- C2 as amended: only the Reach%×Frequency path (step 4) appends a conflict
warning when it changes a previously derived GRPs value by more than 0.01;
the grossImpressions override of a Cost+CPM derivation (step 2) and the
direct-GRPs override (step 3) append no warning — the former is recorded only
in `derivationPath`. -/
theorem resolveTactic_override_warnings :
    (∀ (n geo aud ch : String) (s cost cpm gi r : ℝ),
      0 < cpm → 0 ≤ cost → 0 < s → 0 ≤ gi → 0 < r → r ≤ 100 →
      (resolveTactic (TacticInputs.mk n geo aud s ch none (some gi) (some cost) (some cpm)
        (some r) none)).warnings = [] ∧
      (resolveTactic (TacticInputs.mk n geo aud s ch none (some gi) (some cost) (some cpm)
        (some r) none)).grps = some (gi / s * 100) ∧
      (resolveTactic (TacticInputs.mk n geo aud s ch none (some gi) (some cost) (some cpm)
        (some r) none)).derivationPath = "Gross Impressions → GRPs (overrides Cost+CPM)") ∧
    (∀ (n geo aud ch : String) (s gv gi r : ℝ),
      0 < s → 0 ≤ gi → 0 ≤ gv → 0 < r → r ≤ 100 →
      (resolveTactic (TacticInputs.mk n geo aud s ch (some gv) (some gi) none none
        (some r) none)).warnings = [] ∧
      (resolveTactic (TacticInputs.mk n geo aud s ch (some gv) (some gi) none none
        (some r) none)).grps = some gv ∧
      (resolveTactic (TacticInputs.mk n geo aud s ch (some gv) (some gi) none none
        (some r) none)).derivationPath = "GRPs provided directly") ∧
    (∀ (n geo aud ch : String) (s gv r f : ℝ),
      0 < r → r ≤ 100 → 0 ≤ f → 0.01 < |gv - r * f| →
      (resolveTactic (TacticInputs.mk n geo aud s ch (some gv) none none none
        (some r) (some f))).warnings = [grpsConflictWarning] ∧
      (resolveTactic (TacticInputs.mk n geo aud s ch (some gv) none none none
        (some r) (some f))).grps = some (r * f)) := by
  refine ⟨?_, ?_, ?_⟩
  · intro n geo aud ch s cost cpm gi r hcpm hcost hs hgi hr hr100
    have h1 : ¬cpm ≤ 0 := not_le.mpr hcpm
    have h2 : ¬cost < 0 := not_lt.mpr hcost
    have h3 : ¬s ≤ 0 := not_le.mpr hs
    have h4 : ¬gi < 0 := not_lt.mpr hgi
    have h5 : ¬r ≤ 0 := not_le.mpr hr
    have h6 : ¬(gi / s * 100) < 0 := by
      rw [not_lt]
      positivity
    have h7 : ¬(100 : ℝ) < r := not_lt.mpr hr100
    have h8 : ¬cost / cpm * 1000 < 0 := by
      rw [not_lt]
      positivity
    unfold resolveTactic resolveTacticBody deriveGRPs stepCostCPM stepGrossImpressions
      stepGRPsDirect stepReachFrequency resolveAfterGRPs finishReach finishEffective
      initResult
    simp [grossImpressionsFromCostCPM, grpsFromImpressions, averageFrequency,
      effectiveReach3Plus, h1, h2, h3, h4, h5, h6, h7, h8]
  · intro n geo aud ch s gv gi r hs hgi hgv hr hr100
    have h3 : ¬s ≤ 0 := not_le.mpr hs
    have h4 : ¬gi < 0 := not_lt.mpr hgi
    have h5 : ¬r ≤ 0 := not_le.mpr hr
    have h6 : ¬gv < 0 := not_lt.mpr hgv
    have h7 : ¬(100 : ℝ) < r := not_lt.mpr hr100
    unfold resolveTactic resolveTacticBody deriveGRPs stepCostCPM stepGrossImpressions
      stepGRPsDirect stepReachFrequency resolveAfterGRPs finishReach finishEffective
      initResult
    simp [grpsFromImpressions, averageFrequency, effectiveReach3Plus, h3, h4, h5, h6, h7]
  · intro n geo aud ch s gv r f hr hr100 hf hdiff
    have h1 : ¬(r < 0 ∨ 100 < r) := by
      rw [not_or]
      exact ⟨not_lt.mpr hr.le, not_lt.mpr hr100⟩
    have h2 : ¬f < 0 := not_lt.mpr hf
    have h5 : ¬r ≤ 0 := not_le.mpr hr
    have h6 : ¬r * f < 0 := by
      rw [not_lt]
      positivity
    have h7 : ¬(100 : ℝ) < r := not_lt.mpr hr100
    unfold resolveTactic resolveTacticBody deriveGRPs stepCostCPM stepGrossImpressions
      stepGRPsDirect stepReachFrequency resolveAfterGRPs finishReach finishEffective
      initResult
    have h0 : ¬r < 0 := not_lt.mpr hr.le
    simp [grpsFromReachFrequency, averageFrequency, effectiveReach3Plus,
      h0, h1, h2, h5, h6, h7, hdiff]

/-- Closed witness for the amended C2, instantiating the grossImpressions
override (no warning) and the Reach×Frequency override (warning). -/
theorem resolveTactic_override_warnings_witness :
    ((0:ℝ) < 10 ∧ (0:ℝ) ≤ 100 ∧ (0:ℝ) < 1000 ∧ (0:ℝ) ≤ 5000 ∧ (0:ℝ) < 50 ∧
      (50:ℝ) ≤ 100 ∧ (0.01:ℝ) < |(100:ℝ) - 50 * 4|) ∧
    ((resolveTactic (TacticInputs.mk "T" "G" "A" 1000 "Other" none (some 5000) (some 100)
        (some 10) (some 50) none)).warnings = [] ∧
      (resolveTactic (TacticInputs.mk "T" "G" "A" 1000 "Other" none (some 5000) (some 100)
        (some 10) (some 50) none)).grps = some ((5000:ℝ) / 1000 * 100) ∧
      (resolveTactic (TacticInputs.mk "T" "G" "A" 1000 "Other" none (some 5000) (some 100)
        (some 10) (some 50) none)).derivationPath =
        "Gross Impressions → GRPs (overrides Cost+CPM)") ∧
    ((resolveTactic (TacticInputs.mk "T" "G" "A" 1000 "Other" (some 100) none none none
        (some 50) (some 4))).warnings = [grpsConflictWarning] ∧
      (resolveTactic (TacticInputs.mk "T" "G" "A" 1000 "Other" (some 100) none none none
        (some 50) (some 4))).grps = some ((50:ℝ) * 4)) := by
  have habs : |(100:ℝ) - 50 * 4| = 100 := by
    rw [abs_of_nonpos] <;> norm_num
  refine ⟨⟨by norm_num, by norm_num, by norm_num, by norm_num, by norm_num, by norm_num,
    by rw [habs]; norm_num⟩, ?_, ?_⟩
  · exact resolveTactic_override_warnings.1 "T" "G" "A" "Other" 1000 100 10 5000 50
      (by norm_num) (by norm_num) (by norm_num) (by norm_num) (by norm_num) (by norm_num)
  · exact resolveTactic_override_warnings.2.2 "T" "G" "A" "Other" 1000 100 50 4
      (by norm_num) (by norm_num) (by norm_num) (by rw [habs]; norm_num)

/-! ### Reach-curve estimation in the resolver (C3) -/

/-- Counterexample to C3 as stated: the TV channel has a built-in curve
(`getReachCurveK "TV" = some 1`) and a GRPs value of 0 is derived, with
neither reachPercent nor frequency supplied — yet the resolver does not
estimate: reachPercent stays null, `reachPercentEstimated` is false, and the
cannot-determine warning is appended instead (the code requires `grps > 0`
in addition to curve availability). -/
theorem resolveTactic_curve_zero_grps_cex :
    getReachCurveK "TV" = some 1 ∧
    (resolveTactic (TacticInputs.mk "T" "G" "A" 1000 "TV" (some 0) none none none
      none none)).grps = some 0 ∧
    (resolveTactic (TacticInputs.mk "T" "G" "A" 1000 "TV" (some 0) none none none
      none none)).reachPercent = none ∧
    (resolveTactic (TacticInputs.mk "T" "G" "A" 1000 "TV" (some 0) none none none
      none none)).reachPercentEstimated = false ∧
    cannotDetermineWarning ∈
      (resolveTactic (TacticInputs.mk "T" "G" "A" 1000 "TV" (some 0) none none none
        none none)).warnings := by
  have heval : (resolveTactic (TacticInputs.mk "T" "G" "A" 1000 "TV" (some 0) none none
      none none none)).grps = some 0 ∧
      (resolveTactic (TacticInputs.mk "T" "G" "A" 1000 "TV" (some 0) none none none
        none none)).reachPercent = none ∧
      (resolveTactic (TacticInputs.mk "T" "G" "A" 1000 "TV" (some 0) none none none
        none none)).reachPercentEstimated = false ∧
      (resolveTactic (TacticInputs.mk "T" "G" "A" 1000 "TV" (some 0) none none none
        none none)).warnings = [cannotDetermineWarning] := by
    unfold resolveTactic resolveTacticBody deriveGRPs stepCostCPM stepGrossImpressions
      stepGRPsDirect stepReachFrequency resolveAfterGRPs finishReach finishEffective
      initResult
    norm_num [getReachCurveK, effectiveReach3Plus]
  refine ⟨rfl, heval.1, heval.2.1, heval.2.2.1, ?_⟩
  rw [heval.2.2.2]
  exact List.mem_singleton_self _

/-- C3 as amended: with a derived GRPs value and neither reachPercent nor
frequency supplied, the resolver estimates reach via the channel curve only
when the curve exists AND the derived GRPs value is positive (setting
reachPercent and frequency, marking `reachPercentEstimated`, and appending a
warning naming the channel); when no curve is available, or when the derived
GRPs value is 0, it appends the cannot-determine warning and leaves
reachPercent and frequency null. -/
theorem resolveTactic_curve_estimation :
    (∀ (n geo aud ch : String) (s g k : ℝ), 0 < g → getReachCurveK ch = some k →
      (resolveTactic (TacticInputs.mk n geo aud s ch (some g) none none none none
        none)).reachPercent = some (100 * (1 - Real.exp (-k * g / 100))) ∧
      (resolveTactic (TacticInputs.mk n geo aud s ch (some g) none none none none
        none)).frequency = some (g / (100 * (1 - Real.exp (-k * g / 100)))) ∧
      (resolveTactic (TacticInputs.mk n geo aud s ch (some g) none none none none
        none)).reachPercentEstimated = true ∧
      reachCurveWarning ch ∈
        (resolveTactic (TacticInputs.mk n geo aud s ch (some g) none none none none
          none)).warnings ∧
      (resolveTactic (TacticInputs.mk n geo aud s ch (some g) none none none none
        none)).isFullyResolved = true) ∧
    (∀ (n geo aud ch : String) (s g : ℝ), 0 ≤ g → getReachCurveK ch = none →
      (resolveTactic (TacticInputs.mk n geo aud s ch (some g) none none none none
        none)).reachPercent = none ∧
      (resolveTactic (TacticInputs.mk n geo aud s ch (some g) none none none none
        none)).frequency = none ∧
      (resolveTactic (TacticInputs.mk n geo aud s ch (some g) none none none none
        none)).reachPercentEstimated = false ∧
      (resolveTactic (TacticInputs.mk n geo aud s ch (some g) none none none none
        none)).warnings = [cannotDetermineWarning]) ∧
    (∀ (n geo aud ch : String) (s : ℝ),
      (resolveTactic (TacticInputs.mk n geo aud s ch (some 0) none none none none
        none)).reachPercent = none ∧
      (resolveTactic (TacticInputs.mk n geo aud s ch (some 0) none none none none
        none)).frequency = none ∧
      (resolveTactic (TacticInputs.mk n geo aud s ch (some 0) none none none none
        none)).reachPercentEstimated = false ∧
      (resolveTactic (TacticInputs.mk n geo aud s ch (some 0) none none none none
        none)).warnings = [cannotDetermineWarning]) := by
  refine ⟨?_, ?_, ?_⟩
  · intro n geo aud ch s g k hg hk
    have hch : ch = "TV" ∧ k = 1 := by
      unfold getReachCurveK at hk
      split_ifs at hk with hc
      exact ⟨hc, (Option.some.inj hk).symm⟩
    obtain ⟨rfl, rfl⟩ := hch
    have hexp : Real.exp (-g / 100) < 1 := by
      rw [Real.exp_lt_one_iff]
      nlinarith
    have hexppos : (0:ℝ) < Real.exp (-g / 100) := Real.exp_pos _
    have h1 : ¬g < 0 := not_lt.mpr hg.le
    have h2 : ¬(1:ℝ) ≤ 0 := by norm_num
    have h3a : ¬100 * (1 - Real.exp (-g / 100)) ≤ 0 := by
      rw [not_le]
      nlinarith
    have h3b : ¬1 - Real.exp (-g / 100) ≤ 0 := by
      rw [not_le]
      nlinarith
    have h4a : ¬(100:ℝ) < 100 * (1 - Real.exp (-g / 100)) := by
      rw [not_lt]
      nlinarith
    have h4b : ¬(1:ℝ) < 1 - Real.exp (-g / 100) := by
      rw [not_lt]
      nlinarith
    unfold resolveTactic resolveTacticBody deriveGRPs stepCostCPM stepGrossImpressions
      stepGRPsDirect stepReachFrequency resolveAfterGRPs finishReach finishEffective
      initResult
    simp [getReachCurveK, estimateReachPercent, averageFrequency, effectiveReach3Plus,
      hg, h1, h2, h3a, h3b, h4a, h4b]
  · intro n geo aud ch s g hg hk
    have h1 : ¬g < 0 := not_lt.mpr hg
    unfold resolveTactic resolveTacticBody deriveGRPs stepCostCPM stepGrossImpressions
      stepGRPsDirect stepReachFrequency resolveAfterGRPs finishReach finishEffective
      initResult
    simp [hk, effectiveReach3Plus, h1]
  · intro n geo aud ch s
    cases hk : getReachCurveK ch with
    | none =>
      unfold resolveTactic resolveTacticBody deriveGRPs stepCostCPM stepGrossImpressions
        stepGRPsDirect stepReachFrequency resolveAfterGRPs finishReach finishEffective
        initResult
      simp [hk, effectiveReach3Plus]
    | some k =>
      unfold resolveTactic resolveTacticBody deriveGRPs stepCostCPM stepGrossImpressions
        stepGRPsDirect stepReachFrequency resolveAfterGRPs finishReach finishEffective
        initResult
      simp [hk, effectiveReach3Plus]

/-- Closed witness for the amended C3: TV with 200 GRPs estimates reach, and
a curveless channel with 200 GRPs does not. -/
theorem resolveTactic_curve_estimation_witness :
    ((0:ℝ) < 200 ∧ getReachCurveK "TV" = some 1 ∧ (0:ℝ) ≤ 200 ∧
      getReachCurveK "Radio" = none) ∧
    ((resolveTactic (TacticInputs.mk "T" "G" "A" 1000 "TV" (some 200) none none none
        none none)).reachPercent = some (100 * (1 - Real.exp (-1 * 200 / 100))) ∧
      (resolveTactic (TacticInputs.mk "T" "G" "A" 1000 "TV" (some 200) none none none
        none none)).frequency =
        some (200 / (100 * (1 - Real.exp (-1 * 200 / 100)))) ∧
      (resolveTactic (TacticInputs.mk "T" "G" "A" 1000 "TV" (some 200) none none none
        none none)).reachPercentEstimated = true ∧
      reachCurveWarning "TV" ∈
        (resolveTactic (TacticInputs.mk "T" "G" "A" 1000 "TV" (some 200) none none none
          none none)).warnings ∧
      (resolveTactic (TacticInputs.mk "T" "G" "A" 1000 "TV" (some 200) none none none
        none none)).isFullyResolved = true) ∧
    ((resolveTactic (TacticInputs.mk "T" "G" "A" 1000 "Radio" (some 200) none none none
        none none)).reachPercent = none ∧
      (resolveTactic (TacticInputs.mk "T" "G" "A" 1000 "Radio" (some 200) none none none
        none none)).frequency = none ∧
      (resolveTactic (TacticInputs.mk "T" "G" "A" 1000 "Radio" (some 200) none none none
        none none)).reachPercentEstimated = false ∧
      (resolveTactic (TacticInputs.mk "T" "G" "A" 1000 "Radio" (some 200) none none none
        none none)).warnings = [cannotDetermineWarning]) :=
  ⟨⟨by norm_num, rfl, by norm_num, rfl⟩,
    resolveTactic_curve_estimation.1 "T" "G" "A" "TV" 1000 200 1 (by norm_num) rfl,
    resolveTactic_curve_estimation.2.1 "T" "G" "A" "Radio" 1000 200 (by norm_num) rfl⟩

/-! ### Effective 3+ reach: monotonicity, bounds and limit (C6) -/

/-- The Poisson mass of 0–2 exposures, `P(0)+P(1)+P(2) = e^{−λ}(1+λ+λ²/2)`. -/
noncomputable def poissonHead (lam : ℝ) : ℝ :=
  Real.exp (-lam) * (1 + lam + lam ^ 2 / 2)

lemma poissonHead_pos {lam : ℝ} (h : 0 ≤ lam) : 0 < poissonHead lam := by
  unfold poissonHead
  have := Real.exp_pos (-lam)
  nlinarith

lemma poissonHead_le_one {lam : ℝ} (h : 0 ≤ lam) : poissonHead lam ≤ 1 := by
  unfold poissonHead
  have hq := Real.quadratic_le_exp_of_nonneg h
  have hpos := Real.exp_pos (-lam)
  calc Real.exp (-lam) * (1 + lam + lam ^ 2 / 2)
      ≤ Real.exp (-lam) * Real.exp lam := mul_le_mul_of_nonneg_left hq hpos.le
    _ = 1 := by rw [← Real.exp_add]; simp

lemma poissonHead_hasDerivAt (lam : ℝ) :
    HasDerivAt poissonHead (-(Real.exp (-lam) * (lam ^ 2 / 2))) lam := by
  have h1 : HasDerivAt (fun x : ℝ => Real.exp (-x)) (Real.exp (-lam) * (-1)) lam :=
    (hasDerivAt_neg lam).exp
  have h2 : HasDerivAt (fun x : ℝ => 1 + x + x ^ 2 / 2)
      (0 + 1 + (2 : ℕ) * lam ^ 1 / 2) lam :=
    (((hasDerivAt_const lam (1 : ℝ)).add (hasDerivAt_id lam)).add
      ((hasDerivAt_pow 2 lam).div_const 2))
  have h3 := h1.mul h2
  convert h3 using 1
  push_cast
  ring

lemma poissonHead_strictAntiOn : StrictAntiOn poissonHead (Set.Ici 0) := by
  apply strictAntiOn_of_deriv_neg (convex_Ici 0)
  · intro x _
    exact (poissonHead_hasDerivAt x).differentiableAt.continuousAt.continuousWithinAt
  · intro x hx
    rw [interior_Ici] at hx
    have hx' : (0:ℝ) < x := hx
    rw [(poissonHead_hasDerivAt x).deriv]
    have h1 := Real.exp_pos (-x)
    have h2 : (0:ℝ) < x ^ 2 / 2 := by positivity
    nlinarith

/-- On nonnegative GRPs the clamp in `effectiveReach3PlusResult` is a no-op:
P(3+) equals `1 − poissonHead (g/100)` exactly. -/
lemma effectiveReach3PlusResult_p3plus (g : ℝ) (hg : 0 ≤ g) :
    (effectiveReach3PlusResult g).p3plus = 1 - poissonHead (g / 100) ∧
    (effectiveReach3PlusResult g).effective3PlusPercent =
      (1 - poissonHead (g / 100)) * 100 := by
  have hlam : (0:ℝ) ≤ g / 100 := by positivity
  have hle := poissonHead_le_one hlam
  have hpos := poissonHead_pos hlam
  have hsum : Real.exp (-(g / 100)) + g / 100 * Real.exp (-(g / 100)) +
      g / 100 * (g / 100) / 2 * Real.exp (-(g / 100)) = poissonHead (g / 100) := by
    unfold poissonHead
    ring
  have hmax : max 0 (min 1 (1 - (Real.exp (-(g / 100)) + g / 100 * Real.exp (-(g / 100)) +
      g / 100 * (g / 100) / 2 * Real.exp (-(g / 100))))) = 1 - poissonHead (g / 100) := by
    rw [hsum, min_eq_right (by linarith), max_eq_right (by linarith)]
  constructor
  · show max 0 (min 1 _) = _
    exact hmax
  · show max 0 (min 1 _) * 100 = _
    rw [hmax]

/-- C6: `effectiveReach3Plus` succeeds on nonnegative GRPs; its
`effective3PlusPercent` is strictly increasing in GRPs on [0,∞), lies in
[0,100) there, and tends to 100 as GRPs → ∞; the returned `p3plus` value is
the clamped `1 − P(0) − P(1) − P(2)`, lying in [0,1]. -/
theorem effectiveReach3Plus_monotone_bounds :
    (∀ g : ℝ, 0 ≤ g → effectiveReach3Plus g = .ok (effectiveReach3PlusResult g)) ∧
    (∀ g₁ g₂ : ℝ, 0 ≤ g₁ → g₁ < g₂ →
      (effectiveReach3PlusResult g₁).effective3PlusPercent <
        (effectiveReach3PlusResult g₂).effective3PlusPercent) ∧
    (∀ g : ℝ, 0 ≤ g →
      0 ≤ (effectiveReach3PlusResult g).effective3PlusPercent ∧
      (effectiveReach3PlusResult g).effective3PlusPercent < 100 ∧
      0 ≤ (effectiveReach3PlusResult g).p3plus ∧
      (effectiveReach3PlusResult g).p3plus ≤ 1) ∧
    Filter.Tendsto (fun g => (effectiveReach3PlusResult g).effective3PlusPercent)
      Filter.atTop (nhds 100) := by
  refine ⟨?_, ?_, ?_, ?_⟩
  · intro g hg
    unfold effectiveReach3Plus
    rw [if_neg (not_lt.mpr hg)]
  · intro g₁ g₂ h0 hlt
    have h0' : 0 ≤ g₂ := by linarith
    rw [(effectiveReach3PlusResult_p3plus g₁ h0).2,
      (effectiveReach3PlusResult_p3plus g₂ h0').2]
    have hmem₁ : g₁ / 100 ∈ Set.Ici (0:ℝ) := by
      simp only [Set.mem_Ici]
      positivity
    have hmem₂ : g₂ / 100 ∈ Set.Ici (0:ℝ) := by
      simp only [Set.mem_Ici]
      linarith
    have hanti := poissonHead_strictAntiOn hmem₁ hmem₂ (by linarith)
    nlinarith
  · intro g hg
    have hlam : (0:ℝ) ≤ g / 100 := by positivity
    have hle := poissonHead_le_one hlam
    have hpos := poissonHead_pos hlam
    obtain ⟨hp3, hpct⟩ := effectiveReach3PlusResult_p3plus g hg
    rw [hp3, hpct]
    refine ⟨by nlinarith, by nlinarith, by linarith, by linarith⟩
  · have hdiv : Filter.Tendsto (fun g : ℝ => g / 100) Filter.atTop Filter.atTop :=
      Filter.tendsto_id.atTop_div_const (by norm_num)
    have h0 := Real.tendsto_pow_mul_exp_neg_atTop_nhds_zero 0
    have h1 := Real.tendsto_pow_mul_exp_neg_atTop_nhds_zero 1
    have h2 := Real.tendsto_pow_mul_exp_neg_atTop_nhds_zero 2
    have hsum : Filter.Tendsto poissonHead Filter.atTop (nhds 0) := by
      have hcomb := (h0.add h1).add (h2.div_const 2)
      have : ((0:ℝ) + 0 + 0 / 2) = 0 := by norm_num
      rw [this] at hcomb
      refine hcomb.congr fun x => ?_
      unfold poissonHead
      ring
    have hcomp : Filter.Tendsto (fun g : ℝ => poissonHead (g / 100))
        Filter.atTop (nhds 0) := hsum.comp hdiv
    have hlim : Filter.Tendsto (fun g : ℝ => (1 - poissonHead (g / 100)) * 100)
        Filter.atTop (nhds 100) := by
      have := (Filter.Tendsto.const_sub 1 hcomp).mul_const (100:ℝ)
      simpa using this
    refine hlim.congr' ?_
    filter_upwards [Filter.eventually_ge_atTop (0:ℝ)] with g hg
    exact ((effectiveReach3PlusResult_p3plus g hg).2).symm

/-- Closed witness for C6: monotonicity and bounds applied at GRPs 0 and 100,
and success of `effectiveReach3Plus` at 0. -/
theorem effectiveReach3Plus_monotone_bounds_witness :
    ((0:ℝ) ≤ 0 ∧ (0:ℝ) < 100) ∧
    effectiveReach3Plus 0 = .ok (effectiveReach3PlusResult 0) ∧
    (effectiveReach3PlusResult 0).effective3PlusPercent <
      (effectiveReach3PlusResult 100).effective3PlusPercent ∧
    (0 ≤ (effectiveReach3PlusResult 0).effective3PlusPercent ∧
      (effectiveReach3PlusResult 0).effective3PlusPercent < 100 ∧
      0 ≤ (effectiveReach3PlusResult 0).p3plus ∧
      (effectiveReach3PlusResult 0).p3plus ≤ 1) :=
  ⟨⟨le_rfl, by norm_num⟩,
    effectiveReach3Plus_monotone_bounds.1 0 le_rfl,
    effectiveReach3Plus_monotone_bounds.2.1 0 100 le_rfl (by norm_num),
    effectiveReach3Plus_monotone_bounds.2.2.1 0 le_rfl⟩

end ReachCalc
